import Mathlib

/-!
Verification of the Vibespan agent-processing core against its specification.

The Lean definitions below are a shallow embedding of the Python source:
  * `agents.py` — the six `HealthAgent` variants and `AgentOrchestrator`;
  * `virtual_filesystem.py` — `VirtualFileSystem` and `AgentContextManager`.

Modelling conventions:
  * Python numbers (ints and floats in metric payloads and confidences) are
    modelled as `ℚ`; comparisons and arithmetic in the source are exact
    decimal operations on small constants, so no float-rounding behaviour is
    load-bearing for any statement proved here.
  * A Python dict field that may be absent is an `Option`; `d.get(k, v)` is
    `o.getD v`.
  * `async` functions never suspend except on the LLM network call, which is
    modelled as an explicit environment (`LLMEnv`) of provider functions
    returning `Except` (an exception is `Except.error msg`, `str(e) = msg`).
  * Side effects that no statement observes (logging) are dropped.
-/

namespace Vibespan

/-! ### Python/JSON-like values (the VFS content universe) -/

/-- A Python value as stored in the virtual file system: the JSON-serializable
universe (`None`, `bool`, numbers, `str`, `list`, `dict`).  Numbers are
modelled as integers; float formatting (`repr`) is outside the model. -/
inductive PyVal where
  | pnull : PyVal
  | pbool : Bool → PyVal
  | pint : ℤ → PyVal
  | pstr : String → PyVal
  | parr : List PyVal → PyVal
  | pobj : List (String × PyVal) → PyVal
deriving Repr

/-! ### Metrics payload -/

/-- The normalized metrics dict passed to `process_health_data`; absent keys
are `none` (per-agent defaults are applied with `.getD` at use sites, exactly
where the source uses `data.get(key, default)`). -/
structure MetricsPayload where
  recovery_score : Option ℚ
  sleep_duration : Option ℚ
  heart_rate_variability : Option ℚ
  strain_score : Option ℚ
  sources : Option (List String)
  records : Option (List PyVal)

/-- A metrics dict with no keys. -/
def emptyMetrics : MetricsPayload :=
  { recovery_score := none, sleep_duration := none, heart_rate_variability := none,
    strain_score := none, sources := none, records := none }

/-! ### LLM environment (`HealthAgent._call_llm`) -/

/-- The external world seen by `HealthAgent._call_llm`: the two environment
variables and the two provider APIs.  A provider function receives the api
key, the system prompt and the user content, and returns the response text or
raises (modelled as `Except.error` carrying `str(e)`). -/
structure LLMEnv where
  openai_api_key : Option String
  anthropic_api_key : Option String
  openai_create : String → String → String → Except String String
  anthropic_create : String → String → String → Except String String

/-- `name.lower().replace('_', ' ')` from the system prompt construction. -/
def pyLowerUnderscore (s : String) : String :=
  String.mk (s.data.map (fun c => if c = '_' then ' ' else c.toLower))

/-- The system prompt both providers receive in `_call_llm`. -/
def systemPromptFor (name : String) : String :=
  "You are a health AI agent specialized in " ++ pyLowerUnderscore name ++
    ". Provide concise, actionable insights."

/-- The user message both providers receive in `_call_llm`. -/
def userContentFor (context prompt : String) : String :=
  "Context: " ++ context ++ "\n\nPrompt: " ++ prompt

/-- `HealthAgent._fallback_response`. -/
def fallback_response (name : String) : String :=
  "AI analysis unavailable. Using rule-based logic for " ++ name ++ "."

/-- `HealthAgent._call_llm`: try OpenAI when its key is configured (a provider
exception is caught, logged, and falls through), then Anthropic likewise, then
the deterministic fallback string.  The source wraps the whole body in one
more `try/except` that also returns the fallback; in this total model that
outer handler is unreachable. -/
def call_llm (env : LLMEnv) (name prompt context : String) : String :=
  let afterOpenai : Option String :=
    match env.openai_api_key with
    | none => none
    | some key =>
      match env.openai_create key (systemPromptFor name) (userContentFor context prompt) with
      | Except.ok text => some text
      | Except.error _ => none
  match afterOpenai with
  | some text => text
  | none =>
    let afterAnthropic : Option String :=
      match env.anthropic_api_key with
      | none => none
      | some key =>
        match env.anthropic_create key (systemPromptFor name) (userContentFor context prompt) with
        | Except.ok text => some text
        | Except.error _ => none
    match afterAnthropic with
    | some text => text
    | none => fallback_response name

/-! ### Agent result payloads (the `result` dicts of the six agents) -/

/-- `DataCollector.process`'s `collected_data` dict. -/
structure CollectedData where
  timestamp : String
  sources : List String
  records_count : ℕ
  data_types : List String
  status : String
deriving Repr, DecidableEq

/-- One entry of `PatternDetector`'s `patterns` list. -/
structure PatternRecord where
  ptype : String
  description : String
  strength : ℚ
  time_delay : String
  llm_insight : String
deriving Repr, DecidableEq

/-- `PatternDetector.process`'s `result` dict. -/
structure PatternResultData where
  patterns_found : ℕ
  patterns : List PatternRecord
  confidence : ℚ
  llm_enhanced : Bool
  analysis : String
deriving Repr, DecidableEq

/-- `WorkoutPlanner.process`'s `recommendations` dict. -/
structure WorkoutRecommendations where
  workout_type : String
  duration : String
  intensity : String
  recovery_based : Bool
  confidence : ℚ
deriving Repr, DecidableEq

/-- `NutritionPlanner.process`'s `recommendations` dict. -/
structure NutritionRecommendations where
  hydration : String
  macros : String
  timing : String
  supplements : List String
  confidence : ℚ
deriving Repr, DecidableEq

/-- `HealthCoach.process`'s `result` dict. -/
structure CoachResultData where
  insights : List String
  mood : String
  confidence : ℚ
deriving Repr, DecidableEq

/-- `SafetyOfficer.process`'s `safety_status` dict. -/
structure SafetyStatus where
  alerts : List String
  warnings : List String
  risk_level : String
  recommendations : List String
deriving Repr, DecidableEq

/-- The agent-specific `result` value inside an agent's return dict. -/
inductive AgentOutput where
  | collected : CollectedData → AgentOutput
  | patterns : PatternResultData → AgentOutput
  | workout : WorkoutRecommendations → AgentOutput
  | nutrition : NutritionRecommendations → AgentOutput
  | coach : CoachResultData → AgentOutput
  | safety : SafetyStatus → AgentOutput
deriving Repr, DecidableEq

/-- The dict returned by an agent's `process`: `{agent, tenant_id, result}`,
plus a top-level `confidence` key that is present only when the agent's
return literal includes one (in the source only `DataCollector` does; the
other agents keep their confidence inside `result`). -/
structure AgentReturn where
  agent : String
  tenant_id : String
  result : AgentOutput
  confidence : Option ℚ
deriving Repr, DecidableEq

/-- Projection: the `workout_type` field when the result is a workout plan. -/
def AgentOutput.workoutType : AgentOutput → Option String
  | AgentOutput.workout r => some r.workout_type
  | _ => none

/-- Projection: the safety status when the result is one. -/
def AgentOutput.safetyStatus : AgentOutput → Option SafetyStatus
  | AgentOutput.safety r => some r
  | _ => none

/-! ### The six agents -/

/-- `DataCollector.process` (`nowIso` is `datetime.now().isoformat()`). -/
def DataCollector.process (tenant nowIso : String) (data : MetricsPayload) : AgentReturn :=
  { agent := "DataCollector", tenant_id := tenant,
    result := AgentOutput.collected
      { timestamp := nowIso,
        sources := data.sources.getD [],
        records_count := (data.records.getD []).length,
        data_types := ["heart_rate", "sleep", "recovery", "strain"],
        status := "collected" },
    confidence := some 0.95 }

/-- Rendering of `data.get(key, 'N/A')` into `PatternDetector`'s prompt
f-string.  The numeric rendering stands in for Python's number formatting;
the rendered prompt is consumed only by the abstract provider functions and
no statement below depends on its exact text. -/
def optValStr (o : Option ℚ) : String :=
  match o with
  | none => "N/A"
  | some q => toString q.num ++ (if q.den = 1 then "" else "/" ++ toString q.den)

/-- The `llm_prompt` f-string of `PatternDetector.process`. -/
def patternPrompt (data : MetricsPayload) : String :=
  "\n        Analyze this health data for patterns and correlations:\n        - Recovery Score: "
    ++ optValStr data.recovery_score
    ++ "\n        - Sleep Duration: " ++ optValStr data.sleep_duration
    ++ " hours\n        - Heart Rate Variability: " ++ optValStr data.heart_rate_variability
    ++ "\n        - Strain Score: " ++ optValStr data.strain_score
    ++ "\n        \n        Identify 2-3 key patterns with time delays (0-72 hours) and correlation strength.\n        Focus on actionable insights for health optimization.\n        "

/-- `PatternDetector.process`.  The two context-store writes
(`save_health_data("pattern_analysis", data)` before the analysis and
`save_pattern_insight(result)` after) do not influence the returned value;
the one context read, `len(get_recent_insights(5))`, enters only the
`context` string and is passed in as `recentInsightsCount`. -/
def PatternDetector.process (tenant : String) (env : LLMEnv) (recentInsightsCount : ℕ)
    (data : MetricsPayload) : AgentReturn :=
  let context := "Recent insights: " ++ toString recentInsightsCount ++ " patterns found previously"
  let llm_analysis := call_llm env "PatternDetector" (patternPrompt data) context
  let patterns : List PatternRecord :=
    [{ ptype := "sleep_recovery_correlation",
       description := "Sleep quality strongly correlates with recovery score",
       strength := 0.87, time_delay := "0-24 hours", llm_insight := llm_analysis },
     { ptype := "exercise_hrv_impact",
       description := "High-intensity exercise affects HRV for 48-72 hours",
       strength := 0.73, time_delay := "48-72 hours", llm_insight := llm_analysis }]
  { agent := "PatternDetector", tenant_id := tenant,
    result := AgentOutput.patterns
      { patterns_found := patterns.length, patterns := patterns,
        confidence := 0.82, llm_enhanced := true, analysis := llm_analysis },
    confidence := none }

/-- The branch of `WorkoutPlanner.process` on `data.get("recovery_score", 75)`. -/
def WorkoutPlanner.recommend (data : MetricsPayload) : WorkoutRecommendations :=
  let recovery_score := data.recovery_score.getD 75
  if recovery_score ≥ 80 then
    { workout_type := "High Intensity", duration := "45-60 minutes", intensity := "High",
      recovery_based := true, confidence := 0.88 }
  else if recovery_score ≥ 60 then
    { workout_type := "Moderate Intensity", duration := "30-45 minutes", intensity := "Medium",
      recovery_based := true, confidence := 0.88 }
  else
    { workout_type := "Recovery", duration := "20-30 minutes", intensity := "Low",
      recovery_based := true, confidence := 0.88 }

/-- `WorkoutPlanner.process`. -/
def WorkoutPlanner.process (tenant : String) (data : MetricsPayload) : AgentReturn :=
  { agent := "WorkoutPlanner", tenant_id := tenant,
    result := AgentOutput.workout (WorkoutPlanner.recommend data),
    confidence := none }

/-- `NutritionPlanner.process`. -/
def NutritionPlanner.process (tenant : String) (_data : MetricsPayload) : AgentReturn :=
  { agent := "NutritionPlanner", tenant_id := tenant,
    result := AgentOutput.nutrition
      { hydration := "Drink 2.5-3L water today",
        macros := "Focus on protein (1.6g/kg body weight)",
        timing := "Eat within 2 hours post-workout",
        supplements := ["Magnesium", "Vitamin D", "Omega-3"],
        confidence := 0.85 },
    confidence := none }

/-- `HealthCoach.process`. -/
def HealthCoach.process (tenant : String) (_data : MetricsPayload) : AgentReturn :=
  { agent := "HealthCoach", tenant_id := tenant,
    result := AgentOutput.coach
      { insights :=
          ["Your sleep consistency has improved 15% this week",
           "Consider adding 10 minutes of meditation before bed",
           "Your recovery trend is positive - keep up the good work!",
           "Try to maintain your current exercise routine"],
        mood := "positive", confidence := 0.90 },
    confidence := none }

/-- The alert/warning/risk computation of `SafetyOfficer.process`. -/
def SafetyOfficer.check (data : MetricsPayload) : SafetyStatus :=
  let alerts : List String :=
    if data.recovery_score.getD 100 < 30 then
      ["Low recovery score detected - consider rest day"]
    else []
  let warnings : List String :=
    if data.sleep_duration.getD 8 < 6 then ["Insufficient sleep duration"] else []
  { alerts := alerts, warnings := warnings,
    risk_level := if alerts = [] then "low" else "medium",
    recommendations := ["Monitor recovery metrics closely", "Ensure adequate sleep hygiene"] }

/-- `SafetyOfficer.process`. -/
def SafetyOfficer.process (tenant : String) (data : MetricsPayload) : AgentReturn :=
  { agent := "SafetyOfficer", tenant_id := tenant,
    result := AgentOutput.safety (SafetyOfficer.check data),
    confidence := none }

/-! ### The orchestrator (`AgentOrchestrator.process_health_data`) -/

/-- One entry of the summary's `agent_results` list:
`{agent, status: "success", confidence}` or `{agent, status: "error", error}`. -/
inductive AgentRecord where
  | success : String → ℚ → AgentRecord
  | error : String → String → AgentRecord
deriving Repr, DecidableEq

/-- The `agent` field of a record. -/
def AgentRecord.agentName : AgentRecord → String
  | AgentRecord.success a _ => a
  | AgentRecord.error a _ => a

/-- `r["status"] == "success"`. -/
def AgentRecord.isSuccess : AgentRecord → Bool
  | AgentRecord.success _ _ => true
  | AgentRecord.error _ _ => false

/-- `r.get("confidence", 0)`: an error record has no confidence key. -/
def AgentRecord.confOrZero : AgentRecord → ℚ
  | AgentRecord.success _ c => c
  | AgentRecord.error _ _ => 0

/-- The `self.agents` dict insertion order, which is the iteration order of
`process_health_data`'s loop. -/
def agentNames : List String :=
  ["DataCollector", "PatternDetector", "WorkoutPlanner", "NutritionPlanner",
   "HealthCoach", "SafetyOfficer"]

/-- One loop iteration: run the named agent on the payload.  `fault` is the
fault-injection point of property P2: `fault name = some msg` makes that
agent's `process` raise an exception whose `str` is `msg`; `fault name = none`
runs the agent's real body. -/
def runAgent (tenant nowIso : String) (env : LLMEnv) (recentInsightsCount : ℕ)
    (fault : String → Option String) (data : MetricsPayload) (name : String) :
    Except String AgentReturn :=
  match fault name with
  | some msg => Except.error msg
  | none =>
    if name = "DataCollector" then Except.ok (DataCollector.process tenant nowIso data)
    else if name = "PatternDetector" then
      Except.ok (PatternDetector.process tenant env recentInsightsCount data)
    else if name = "WorkoutPlanner" then Except.ok (WorkoutPlanner.process tenant data)
    else if name = "NutritionPlanner" then Except.ok (NutritionPlanner.process tenant data)
    else if name = "HealthCoach" then Except.ok (HealthCoach.process tenant data)
    else Except.ok (SafetyOfficer.process tenant data)

/-- The record appended for one agent: on success
`{agent, status: "success", confidence: result.get("confidence", 0.0)}`, on an
exception `{agent, status: "error", error: str(e)}`. -/
def recordFor (tenant nowIso : String) (env : LLMEnv) (recentInsightsCount : ℕ)
    (fault : String → Option String) (data : MetricsPayload) (name : String) : AgentRecord :=
  match runAgent tenant nowIso env recentInsightsCount fault data name with
  | Except.ok ret => AgentRecord.success name (ret.confidence.getD 0)
  | Except.error e => AgentRecord.error name e

/-- `[r for r in agent_results if r["status"] == "success"]`. -/
def successRecords (l : List AgentRecord) : List AgentRecord :=
  l.filter (fun r => r.isSuccess)

/-- The summary's `overall_confidence` formula:
`sum(confidence of successes) / max(1, len(successes))`. -/
def overallConfidence (l : List AgentRecord) : ℚ :=
  ((successRecords l).map AgentRecord.confOrZero).sum
    / ((max 1 (successRecords l).length : ℕ) : ℚ)

/-- The `summary` dict of `process_health_data`. -/
structure OrchestrationSummary where
  tenant_id : String
  timestamp : String
  agents_processed : ℕ
  successful_agents : ℕ
  agent_results : List AgentRecord
  overall_confidence : ℚ
deriving Repr, DecidableEq

/-- The full return of `process_health_data`: the summary plus the `results`
dict keyed by agent name (successful agents only, in insertion order). -/
structure OrchestrationOutcome where
  summary : OrchestrationSummary
  agent_results : List (String × AgentReturn)
deriving Repr, DecidableEq

/-- `AgentOrchestrator.process_health_data`: run the six agents in order; on
success record `{agent, "success", result.get("confidence", 0.0)}`, on an
exception record `{agent, "error", str(e)}` and continue; then build the
summary.  Total: an agent exception is data, never a raise of the call
itself. -/
def process_health_data (tenant nowIso : String) (env : LLMEnv) (recentInsightsCount : ℕ)
    (fault : String → Option String) (data : MetricsPayload) : OrchestrationOutcome :=
  let agent_records : List AgentRecord :=
    agentNames.map (recordFor tenant nowIso env recentInsightsCount fault data)
  let resultsDict : List (String × AgentReturn) := agentNames.filterMap (fun name =>
    match runAgent tenant nowIso env recentInsightsCount fault data name with
    | Except.ok ret => some (name, ret)
    | Except.error _ => none)
  { summary :=
      { tenant_id := tenant, timestamp := nowIso,
        agents_processed := agent_records.length,
        successful_agents := (successRecords agent_records).length,
        agent_results := agent_records,
        overall_confidence := overallConfidence agent_records },
    agent_results := resultsDict }

/-- Lookup of one agent's entry in the summary's `agent_results` list. -/
def findRecord (l : List AgentRecord) (name : String) : Option AgentRecord :=
  l.find? (fun r => r.agentName = name)

/-- Lookup in the `results` dict returned next to the summary. -/
def lookupResult (o : OrchestrationOutcome) (name : String) : Option AgentReturn :=
  (o.agent_results.find? (fun p => p.1 = name)).map Prod.snd

/-- No fault injected: every agent runs its real body. -/
def noFault : String → Option String := fun _ => none

/-- An environment with no provider key configured. -/
def envNoKeys : LLMEnv :=
  { openai_api_key := none, anthropic_api_key := none,
    openai_create := fun _ _ _ => Except.error "no client",
    anthropic_create := fun _ _ _ => Except.error "no client" }

/-- The C1 scenario input `{recovery_score: 20, sleep_duration: 5}`. -/
def scenarioMetrics : MetricsPayload :=
  { emptyMetrics with recovery_score := some 20, sleep_duration := some 5 }

/-! ### Text and bytes

The VFS encodes content with `base64.b64encode(text.encode()).decode()`.
Strings are modelled as their code-point sequences; `str.encode()` (UTF-8) is
modelled as the code-point byte list, which coincides with UTF-8 exactly on
ASCII text — every encoded payload reasoned about below is ASCII (JSON with
`ensure_ascii=True` produces ASCII, and the well-formedness predicate used by
the round-trip theorems restricts stored strings to ASCII). -/

/-- `text.encode()` restricted to ASCII: the list of code points. -/
def strBytes (s : String) : List ℕ := s.data.map Char.toNat

/-- `bytes.decode()` restricted to ASCII: rebuild the string from code
points. -/
def bytesStr (bs : List ℕ) : String := String.mk (bs.map Char.ofNat)

/-- The base64 alphabet in index order. -/
def b64alphabet : List Char :=
  "ABCDEFGHIJKLMNOPQRSTUVWXYZabcdefghijklmnopqrstuvwxyz0123456789+/".data

/-- The base64 digit for a 6-bit value. -/
def b64char (n : ℕ) : Char := b64alphabet.getD n '='

/-- The 6-bit value of a base64 digit. -/
def b64index (c : Char) : ℕ := b64alphabet.indexOf c

/-- `base64.b64encode` on a byte list: 3-byte groups become 4 digits, a final
1- or 2-byte group is padded with `=`. -/
def b64encodeBytes : List ℕ → List Char
  | [] => []
  | [a] => [b64char (a / 4), b64char (a % 4 * 16), '=', '=']
  | [a, b] => [b64char (a / 4), b64char (a % 4 * 16 + b / 16), b64char (b % 16 * 4), '=']
  | a :: b :: c :: rest =>
    b64char (a / 4) :: b64char (a % 4 * 16 + b / 16) :: b64char (b % 16 * 4 + c / 64) ::
      b64char (c % 64) :: b64encodeBytes rest

/-- Decoding of one 4-digit base64 group, honouring `=` padding. -/
def b64group (c1 c2 c3 c4 : Char) : List ℕ :=
  if c3 = '=' then [b64index c1 * 4 + b64index c2 / 16]
  else if c4 = '=' then
    [b64index c1 * 4 + b64index c2 / 16, b64index c2 % 16 * 16 + b64index c3 / 4]
  else
    [b64index c1 * 4 + b64index c2 / 16, b64index c2 % 16 * 16 + b64index c3 / 4,
     b64index c3 % 4 * 64 + b64index c4]

/-- `base64.b64decode` on well-formed input: decode 4-digit groups. -/
def b64decodeChars : List Char → List ℕ
  | c1 :: c2 :: c3 :: c4 :: rest => b64group c1 c2 c3 c4 ++ b64decodeChars rest
  | _ => []

/-- Decimal digits, most significant first; the fuel (any bound on the digit
count, here `n + 1`) keeps the recursion structural so that proofs can
evaluate it. -/
def natCharsAux : ℕ → ℕ → List Char
  | 0, _ => []
  | fuel + 1, n =>
    if n < 10 then [Char.ofNat (48 + n)]
    else natCharsAux fuel (n / 10) ++ [Char.ofNat (48 + n % 10)]

/-- Decimal digits of a natural number, most significant first. -/
def natChars (n : ℕ) : List Char := natCharsAux (n + 1) n

/-- `str(n)` for a Python int. -/
def intStr (n : ℤ) : String :=
  if n < 0 then String.mk ('-' :: natChars n.natAbs) else String.mk (natChars n.toNat)

/-- `str(content)` for the non-container contents that `_encode_content`
stringifies (`str` is the identity on `str`, `True`/`False` on `bool`,
`None` on `None`, decimal on `int`).  Containers never reach this function:
`_encode_content` JSON-serializes them instead. -/
def pyStrScalar : PyVal → String
  | PyVal.pstr s => s
  | PyVal.pint n => intStr n
  | PyVal.pbool true => "True"
  | PyVal.pbool false => "False"
  | PyVal.pnull => "None"
  | PyVal.parr _ => ""
  | PyVal.pobj _ => ""

/-! ### JSON serialization (`json.dumps` with default separators)

The model covers the JSON values representable by `PyVal`: numbers are
integers (Python float formatting is outside the model) and the proved
round-trip statements restrict strings to ASCII (with `ensure_ascii=True`
the serializer would escape non-ASCII text as `\uXXXX`; that branch is not
modelled). -/

/-- Lowercase hex digit, as produced by `json.dumps` in `\uXXXX` escapes. -/
def hexDigitChar (n : ℕ) : Char :=
  if n < 10 then Char.ofNat (48 + n) else Char.ofNat (87 + n)

/-- The escaping `json.dumps` applies inside a string literal (ASCII range):
quote, backslash and the named control escapes, `\u00XX` for the remaining
control characters. -/
def escapeChar (c : Char) : List Char :=
  if c = '"' then ['\\', '"']
  else if c = '\\' then ['\\', '\\']
  else if c = '\n' then ['\\', 'n']
  else if c = '\t' then ['\\', 't']
  else if c = '\r' then ['\\', 'r']
  else if c.toNat = 8 then ['\\', 'b']
  else if c.toNat = 12 then ['\\', 'f']
  else if c.toNat < 32 then
    ['\\', 'u', '0', '0', hexDigitChar (c.toNat / 16), hexDigitChar (c.toNat % 16)]
  else [c]

/-- Escape a whole string body. -/
def escapeString (s : String) : List Char := (s.data.map escapeChar).flatten

mutual

/-- `json.dumps` (default separators `", "` and `": "`), as a char list. -/
def dumpsChars : PyVal → List Char
  | PyVal.pnull => "null".data
  | PyVal.pbool true => "true".data
  | PyVal.pbool false => "false".data
  | PyVal.pint n => (intStr n).data
  | PyVal.pstr s => '"' :: (escapeString s ++ ['"'])
  | PyVal.parr [] => "[]".data
  | PyVal.parr (x :: xs) => '[' :: (dumpsItems (x :: xs) ++ [']'])
  | PyVal.pobj [] => "\x7b\x7d".data
  | PyVal.pobj (kv :: kvs) => '\x7b' :: (dumpsMembers (kv :: kvs) ++ ['\x7d'])

/-- Array elements joined by `", "`. -/
def dumpsItems : List PyVal → List Char
  | [] => []
  | [x] => dumpsChars x
  | x :: y :: t => dumpsChars x ++ (',' :: ' ' :: dumpsItems (y :: t))

/-- Object members `"key": value` joined by `", "`. -/
def dumpsMembers : List (String × PyVal) → List Char
  | [] => []
  | [(k, v)] => '"' :: (escapeString k ++ ('"' :: ':' :: ' ' :: dumpsChars v))
  | (k, v) :: m :: t =>
    '"' :: (escapeString k ++ ('"' :: ':' :: ' ' :: dumpsChars v)) ++
      (',' :: ' ' :: dumpsMembers (m :: t))

end

/-- `json.dumps` as a string. -/
def dumps (v : PyVal) : String := String.mk (dumpsChars v)

/-! ### JSON parsing (`json.loads`)

A recursive-descent parser with a depth fuel.  It accepts everything
`json.dumps` produces for a `PyVal`; like the serializer it covers integer
numerals only (a float or `NaN`/`Infinity` literal fails to parse, a
divergence confined to contents outside the `PyVal` universe). -/

/-- ASCII decimal digit test. -/
def isDigitChar (c : Char) : Bool := 48 ≤ c.toNat && c.toNat ≤ 57

/-- JSON whitespace. -/
def isWsChar (c : Char) : Bool := c = ' ' || c = '\n' || c = '\t' || c = '\r'

/-- Drop leading whitespace. -/
def skipWs : List Char → List Char
  | [] => []
  | c :: cs => if isWsChar c then skipWs cs else c :: cs

/-- Value of one hex digit. -/
def hexVal (c : Char) : Option ℕ :=
  if 48 ≤ c.toNat ∧ c.toNat ≤ 57 then some (c.toNat - 48)
  else if 97 ≤ c.toNat ∧ c.toNat ≤ 102 then some (c.toNat - 87)
  else if 65 ≤ c.toNat ∧ c.toNat ≤ 70 then some (c.toNat - 55)
  else none

/-- The named escapes a `\\` may introduce. -/
def escDecode (e : Char) : Option Char :=
  if e = '"' then some '"'
  else if e = '\\' then some '\\'
  else if e = '/' then some '/'
  else if e = 'b' then some (Char.ofNat 8)
  else if e = 'f' then some (Char.ofNat 12)
  else if e = 'n' then some '\n'
  else if e = 'r' then some '\r'
  else if e = 't' then some '\t'
  else none

/-- Parse a string body after the opening quote, up to and including the
closing quote; returns the decoded content and the rest.  The fuel (any bound
on the number of decoded characters, callers pass the input length) keeps the
recursion structural on `ℕ` so that proofs can evaluate it. -/
def parseStringBody : ℕ → List Char → Option (List Char × List Char)
  | 0, _ => none
  | _ + 1, [] => none
  | fuel + 1, c :: cs =>
    if c = '"' then some ([], cs)
    else if c = '\\' then
      match cs with
      | [] => none
      | e :: cs2 =>
        if e = 'u' then
          match cs2 with
          | h1 :: h2 :: h3 :: h4 :: cs3 =>
            match hexVal h1, hexVal h2, hexVal h3, hexVal h4 with
            | some a, some b, some c2, some d =>
              (parseStringBody fuel cs3).map
                (fun p => (Char.ofNat (((a * 16 + b) * 16 + c2) * 16 + d) :: p.1, p.2))
            | _, _, _, _ => none
          | _ => none
        else
          match escDecode e with
          | some r => (parseStringBody fuel cs2).map (fun p => (r :: p.1, p.2))
          | none => none
    else (parseStringBody fuel cs).map (fun p => (c :: p.1, p.2))

/-- Consume a maximal run of decimal digits, folding them onto `acc`. -/
def parseDigits : ℕ → List Char → ℕ × List Char
  | acc, [] => (acc, [])
  | acc, c :: cs =>
    if isDigitChar c then parseDigits (acc * 10 + (c.toNat - 48)) cs else (acc, c :: cs)

mutual

/-- Parse one JSON value (fuel bounds the nesting depth): skip whitespace and
dispatch on the first character. -/
def parseValue : ℕ → List Char → Option (PyVal × List Char)
  | 0, _ => none
  | d + 1, cs =>
    match skipWs cs with
    | [] => none
    | c :: cs1 =>
      if c = 'n' then
        match cs1 with
        | 'u' :: 'l' :: 'l' :: r => some (PyVal.pnull, r)
        | _ => none
      else if c = 't' then
        match cs1 with
        | 'r' :: 'u' :: 'e' :: r => some (PyVal.pbool true, r)
        | _ => none
      else if c = 'f' then
        match cs1 with
        | 'a' :: 'l' :: 's' :: 'e' :: r => some (PyVal.pbool false, r)
        | _ => none
      else if c = '"' then
        (parseStringBody (cs1.length + 1) cs1).map
          (fun p => (PyVal.pstr (String.mk p.1), p.2))
      else if c = '[' then
        match skipWs cs1 with
        | ']' :: r => some (PyVal.parr [], r)
        | cs2 => (parseItems d cs2).map (fun p => (PyVal.parr p.1, p.2))
      else if c = '\x7b' then
        match skipWs cs1 with
        | '\x7d' :: r => some (PyVal.pobj [], r)
        | cs2 => (parseMembers d cs2).map (fun p => (PyVal.pobj p.1, p.2))
      else if c = '-' then
        match cs1 with
        | c2 :: cs2 =>
          if isDigitChar c2 then
            let p := parseDigits 0 (c2 :: cs2)
            some (PyVal.pint (-(p.1 : ℤ)), p.2)
          else none
        | [] => none
      else if isDigitChar c then
        let p := parseDigits 0 (c :: cs1)
        some (PyVal.pint (p.1 : ℤ), p.2)
      else none

/-- Parse the elements of a non-empty array, consuming the closing `]`. -/
def parseItems : ℕ → List Char → Option (List PyVal × List Char)
  | 0, _ => none
  | d + 1, cs =>
    match parseValue d cs with
    | none => none
    | some (v, r) =>
      match skipWs r with
      | ',' :: r2 => (parseItems d (skipWs r2)).map (fun p => (v :: p.1, p.2))
      | ']' :: r2 => some ([v], r2)
      | _ => none

/-- Parse the members of a non-empty object, consuming the closing brace. -/
def parseMembers : ℕ → List Char → Option (List (String × PyVal) × List Char)
  | 0, _ => none
  | d + 1, cs =>
    match cs with
    | '"' :: cs1 =>
      match parseStringBody (cs1.length + 1) cs1 with
      | none => none
      | some (k, r) =>
        match skipWs r with
        | ':' :: r2 =>
          match parseValue d (skipWs r2) with
          | none => none
          | some (v, r3) =>
            match skipWs r3 with
            | ',' :: r4 =>
              (parseMembers d (skipWs r4)).map (fun p => ((String.mk k, v) :: p.1, p.2))
            | '\x7d' :: r4 => some ([(String.mk k, v)], r4)
            | _ => none
        | _ => none
    | _ => none

end

/-- `json.loads`: whole-input parse, allowing trailing whitespace.  The fuel
`length + 1` dominates the nesting depth of any parseable input. -/
def loads (s : String) : Option PyVal :=
  match parseValue (s.data.length + 1) s.data with
  | some (v, r) => if skipWs r = [] then some v else none
  | none => none

/-! ### Fuel accounting and well-formedness for the round-trip proofs -/

mutual

/-- Fuel needed by `parseValue` on the serialization of a value. -/
def costV : PyVal → ℕ
  | PyVal.parr xs => 1 + costItems xs
  | PyVal.pobj kvs => 1 + costMembers kvs
  | _ => 1

/-- Fuel needed by `parseItems` on serialized elements. -/
def costItems : List PyVal → ℕ
  | [] => 0
  | x :: t => 1 + costV x + costItems t

/-- Fuel needed by `parseMembers` on serialized members. -/
def costMembers : List (String × PyVal) → ℕ
  | [] => 0
  | (_, v) :: t => 1 + costV v + costMembers t

end

/-- ASCII test for one character. -/
def asciiChar (c : Char) : Bool := c.toNat < 128

/-- ASCII test for a string. -/
def asciiString (s : String) : Bool := s.data.all asciiChar

/-- No duplicate among object keys. -/
def nodupKeys : List String → Bool
  | [] => true
  | s :: t => (!t.contains s) && nodupKeys t

mutual

/-- Well-formedness for the round-trip statements: every string (and key) is
ASCII, and every object's keys are distinct (a Python dict cannot hold
duplicate keys, so only such `pobj` values model real contents). -/
def wfV : PyVal → Bool
  | PyVal.pstr s => asciiString s
  | PyVal.parr xs => wfItems xs
  | PyVal.pobj kvs => wfMembers kvs && nodupKeys (kvs.map Prod.fst)
  | _ => true

/-- Pointwise well-formedness of array elements. -/
def wfItems : List PyVal → Bool
  | [] => true
  | x :: t => wfV x && wfItems t

/-- Pointwise well-formedness of object members. -/
def wfMembers : List (String × PyVal) → Bool
  | [] => true
  | (k, v) :: t => asciiString k && wfV v && wfMembers t

end

/-! ### `VirtualFileSystem` -/

/-- `isinstance(content, (dict, list))`. -/
def isContainer : PyVal → Bool
  | PyVal.parr _ => true
  | PyVal.pobj _ => true
  | _ => false

/-- `VirtualFileSystem._encode_content`: JSON-serialize a dict or list, else
stringify; then base64-encode. -/
def encode_content (content : PyVal) : String :=
  if isContainer content then String.mk (b64encodeBytes (strBytes (dumps content)))
  else String.mk (b64encodeBytes (strBytes (pyStrScalar content)))

/-- `VirtualFileSystem._decode_content`: base64-decode, attempt JSON-decode,
fall back to the plain string. -/
def decode_content (encoded : String) : PyVal :=
  let decoded := bytesStr (b64decodeChars encoded.data)
  match loads decoded with
  | some v => v
  | none => PyVal.pstr decoded

/-- Stand-in for `len(str(content))` (the stored `size`).  Python renders
containers with `repr`, whose exact text (quote style, `True`/`None`
spellings) no statement below observes; the JSON rendering stands in for
it. -/
def pyStrLen (content : PyVal) : ℕ :=
  if isContainer content then (dumps content).length else (pyStrScalar content).length

/-- A `datetime.datetime` value. -/
structure DateTime where
  year : ℕ
  month : ℕ
  day : ℕ
  hour : ℕ
  minute : ℕ
  second : ℕ
  microsecond : ℕ
deriving Repr, DecidableEq

/-- Zero-padded fixed-width decimal, most significant digit first. -/
def padNum : ℕ → ℕ → List Char
  | 0, _ => []
  | w + 1, n => padNum w (n / 10) ++ [Char.ofNat (48 + n % 10)]

/-- `datetime.isoformat()`: `YYYY-MM-DDTHH:MM:SS` with a `.ffffff` suffix
exactly when the microsecond field is nonzero. -/
def DateTime.isoformat (t : DateTime) : String :=
  String.mk (padNum 4 t.year ++ '-' :: padNum 2 t.month ++ '-' :: padNum 2 t.day ++
    'T' :: padNum 2 t.hour ++ ':' :: padNum 2 t.minute ++ ':' :: padNum 2 t.second ++
    (if t.microsecond = 0 then [] else '.' :: padNum 6 t.microsecond))

/-- `datetime.strftime("%Y%m%d_%H%M%S")`: second resolution, no
microseconds. -/
def DateTime.strftimeCompact (t : DateTime) : String :=
  String.mk (padNum 4 t.year ++ padNum 2 t.month ++ padNum 2 t.day ++
    '_' :: padNum 2 t.hour ++ padNum 2 t.minute ++ padNum 2 t.second)

/-- All fields within calendar/clock range (as `datetime` guarantees), so
that the padded renderings are faithful. -/
def DateTime.inRange (t : DateTime) : Prop :=
  t.year < 10000 ∧ 0 < t.month ∧ t.month < 13 ∧ 0 < t.day ∧ t.day < 32 ∧
    t.hour < 24 ∧ t.minute < 60 ∧ t.second < 60 ∧ t.microsecond < 1000000

/-- One stored file: the value of `self.files[path]`.  The `checksum` field
(an MD5 hex digest of `str(content)`) is not modelled — no statement below
observes it.  The source stamps `created_at` and `updated_at` with two
separate `datetime.now()` calls microseconds apart; the model uses one
instant for both. -/
structure FileData where
  path : String
  content : String
  metadata : List (String × String)
  created_at : String
  updated_at : String
  size : ℕ
deriving Repr, DecidableEq

/-- The state of one tenant's `VirtualFileSystem`: the `files` dict, as an
insertion-ordered association list with unique keys (a Python dict). -/
structure VFSState where
  tenant_id : String
  files : List (String × FileData)
deriving Repr, DecidableEq

/-- A freshly constructed `VirtualFileSystem(tenant_id)`. -/
def emptyVFS (tenant : String) : VFSState := { tenant_id := tenant, files := [] }

/-- `VirtualFileSystem._generate_path`. -/
def generate_path (tenant category filename : String) : String :=
  "/" ++ tenant ++ "/" ++ category ++ "/" ++ filename

/-- `self.files[path] = file_data` on a Python dict: update in place if the
key exists (keeping its position), else append. -/
def dictInsert (k : String) (v : FileData) : List (String × FileData) → List (String × FileData)
  | [] => [(k, v)]
  | (k2, v2) :: rest => if k2 = k then (k, v) :: rest else (k2, v2) :: dictInsert k v rest

/-- Dict lookup. -/
def dictGet (k : String) : List (String × FileData) → Option FileData
  | [] => none
  | (k2, v2) :: rest => if k2 = k then some v2 else dictGet k rest

/-- `del self.files[path]`. -/
def dictRemove (k : String) : List (String × FileData) → List (String × FileData)
  | [] => []
  | (k2, v2) :: rest => if k2 = k then rest else (k2, v2) :: dictRemove k rest

/-- `VirtualFileSystem.write_file`: synthesize the path, build the entry
(encoded content, metadata, fresh timestamps, size), store/overwrite. -/
def write_file (st : VFSState) (category filename : String) (content : PyVal)
    (metadata : List (String × String)) (now : DateTime) : VFSState :=
  let path := generate_path st.tenant_id category filename
  let fd : FileData :=
    { path := path,
      content := encode_content content,
      metadata := metadata,
      created_at := now.isoformat,
      updated_at := now.isoformat,
      size := pyStrLen content }
  { st with files := dictInsert path fd st.files }

/-- `VirtualFileSystem.read_file`: `None` when the path is absent, else the
decoded content; never raises. -/
def read_file (st : VFSState) (category filename : String) : Option PyVal :=
  match dictGet (generate_path st.tenant_id category filename) st.files with
  | none => none
  | some fd => some (decode_content fd.content)

/-- One entry of `list_files`'s result (the `checksum` field is omitted like
`FileData`'s). -/
structure FileEntry where
  path : String
  filename : String
  category : String
  size : ℕ
  created_at : String
  updated_at : String
deriving Repr, DecidableEq

/-- `str.startswith`. -/
def pyStartswith (s pre : String) : Bool := pre.data.isPrefixOf s.data

/-- `path.split("/")` (always returns a non-empty list, like Python). -/
def splitOnSlash : List Char → List (List Char)
  | [] => [[]]
  | c :: cs =>
    match splitOnSlash cs with
    | [] => [[]]
    | g :: gs => if c = '/' then [] :: g :: gs else (c :: g) :: gs

/-- `path.split("/")[-1]`. -/
def pathFilename (path : String) : String :=
  String.mk ((splitOnSlash path.data).getLastD [])

/-- `path.split("/")[-2] if len(path.split("/")) > 2 else "unknown"`. -/
def pathCategory (path : String) : String :=
  let parts := splitOnSlash path.data
  if parts.length > 2 then String.mk (parts.getD (parts.length - 2) []) else "unknown"

/-- The listing entry derived from one stored file. -/
def entryOf (path : String) (fd : FileData) : FileEntry :=
  { path := path, filename := pathFilename path, category := pathCategory path,
    size := fd.size, created_at := fd.created_at, updated_at := fd.updated_at }

/-- `VirtualFileSystem.list_files`: filter by `/{tenant}/{category}/` (or by
`/{tenant}/` when no category is given — and also when the empty string is,
since `if category:` is falsy on `""`), in dict iteration order. -/
def list_files (st : VFSState) (category : Option String) : List FileEntry :=
  let pre :=
    match category with
    | some c =>
      if c = "" then "/" ++ st.tenant_id ++ "/" else "/" ++ st.tenant_id ++ "/" ++ c ++ "/"
    | none => "/" ++ st.tenant_id ++ "/"
  (st.files.filter (fun p => pyStartswith p.1 pre)).map (fun p => entryOf p.1 p.2)

/-- `VirtualFileSystem.delete_file`: remove if present; report whether the
path existed; never raises. -/
def delete_file (st : VFSState) (category filename : String) : VFSState × Bool :=
  let path := generate_path st.tenant_id category filename
  match dictGet path st.files with
  | some _ => ({ st with files := dictRemove path st.files }, true)
  | none => (st, false)

/-- The fields of `get_storage_stats` a statement below observes
(`total_size_mb` and the per-category breakdown are derived data no claim
touches). -/
structure StorageStats where
  tenant_id : String
  total_files : ℕ
  total_size_bytes : ℕ
deriving Repr, DecidableEq

/-- `VirtualFileSystem.get_storage_stats`. -/
def get_storage_stats (st : VFSState) : StorageStats :=
  { tenant_id := st.tenant_id, total_files := st.files.length,
    total_size_bytes := (st.files.map (fun p => p.2.size)).sum }

/-! ### `AgentContextManager` (insights) -/

/-- `AgentContextManager.save_pattern_insight`: filename
`pattern_{YYYYMMDD_HHMMSS}.json` in category `insights`, with the metadata
dict of the source. -/
def save_pattern_insight (st : VFSState) (now : DateTime) (pattern : PyVal) : VFSState :=
  let timestamp := now.strftimeCompact
  let filename := "pattern_" ++ timestamp ++ ".json"
  write_file st "insights" filename pattern
    [("insight_type", "pattern_detection"), ("timestamp", timestamp)] now

/-- Strict code-point lexicographic order on char lists (Python `str <`). -/
def lexLt : List Char → List Char → Bool
  | [], [] => false
  | [], _ :: _ => true
  | _ :: _, [] => false
  | a :: as, b :: bs => if a < b then true else if b < a then false else lexLt as bs

/-- Python string comparison. -/
def strLtB (a b : String) : Bool := lexLt a.data b.data

/-- Insert an entry into a list sorted descending by `created_at`, after any
entry with an equal or larger key (stable, like Python's
`sort(reverse=True)`). -/
def insertByCreatedDesc (e : FileEntry) : List FileEntry → List FileEntry
  | [] => [e]
  | x :: xs =>
    if strLtB x.created_at e.created_at then e :: x :: xs else x :: insertByCreatedDesc e xs

/-- `files.sort(key=lambda x: x["created_at"], reverse=True)`: a descending
sort by `created_at`; on the pairwise-distinct keys of every statement below,
any correct descending sort coincides with the source's stable sort. -/
def sortByCreatedDesc (l : List FileEntry) : List FileEntry := l.foldr insertByCreatedDesc []

/-- `AgentContextManager.get_recent_insights`: list the `insights` category,
sort descending by `created_at`, truncate to `limit`. -/
def get_recent_insights (st : VFSState) (limit : ℕ) : List FileEntry :=
  (sortByCreatedDesc (list_files st (some "insights"))).take limit

/-- A placeholder instant used by concrete witnesses. -/
def dt0 : DateTime :=
  { year := 2025, month := 1, day := 2, hour := 3, minute := 4, second := 5, microsecond := 6 }

/-- The `files` dict has pairwise-distinct keys — true of every Python dict,
and preserved by every VFS operation. -/
def keysNodup (st : VFSState) : Prop := (st.files.map Prod.fst).Nodup

/-- The states a `VirtualFileSystem(tenant_id)` can reach: the fresh store
followed by any sequence of `write_file` and `delete_file` operations. -/
inductive Reached (tenant : String) : VFSState → Prop
  | init : Reached tenant (emptyVFS tenant)
  | write (st : VFSState) (category filename : String) (content : PyVal)
      (metadata : List (String × String)) (now : DateTime) :
      Reached tenant st → Reached tenant (write_file st category filename content metadata now)
  | delete (st : VFSState) (category filename : String) :
      Reached tenant st → Reached tenant (delete_file st category filename).1

/-- Head-is-digit test for the trailing-input hypothesis of the number
parser. -/
def headDigit : List Char → Bool
  | [] => false
  | c :: _ => isDigitChar c

/-- A sequence of `save_pattern_insight` calls, each at its own instant. -/
def applySaves (st : VFSState) : List (DateTime × PyVal) → VFSState
  | [] => st
  | (t, p) :: rest => applySaves (save_pattern_insight st t p) rest

/-- The instant collapsed to second resolution (mixed-radix; for in-range
instants this orders exactly like the calendar order ignoring
microseconds). -/
def DateTime.secKey (t : DateTime) : ℕ :=
  ((((t.year * 100 + t.month) * 100 + t.day) * 100 + t.hour) * 100 + t.minute) * 100 + t.second

/-- The filename `save_pattern_insight` generates. -/
def insightFilename (t : DateTime) : String := "pattern_" ++ t.strftimeCompact ++ ".json"

/-- The path of one saved insight. -/
def insightPath (tenant : String) (t : DateTime) : String :=
  generate_path tenant "insights" (insightFilename t)

/-- The stored entry one `save_pattern_insight` produces. -/
def insightFileData (tenant : String) (t : DateTime) (p : PyVal) : FileData :=
  { path := insightPath tenant t, content := encode_content p,
    metadata := [("insight_type", "pattern_detection"), ("timestamp", t.strftimeCompact)],
    created_at := t.isoformat, updated_at := t.isoformat, size := pyStrLen p }

/-- The listing entry one saved insight shows up as. -/
def insightEntry (tenant : String) (t : DateTime) (p : PyVal) : FileEntry :=
  entryOf (insightPath tenant t) (insightFileData tenant t p)

/-- Two instants within the same second, microseconds apart. -/
def dtA : DateTime :=
  { year := 2025, month := 1, day := 2, hour := 3, minute := 4, second := 5, microsecond := 0 }

/-- See `dtA`. -/
def dtB : DateTime :=
  { year := 2025, month := 1, day := 2, hour := 3, minute := 4, second := 5, microsecond := 1 }


/-- One second after `dtA` (for concrete instantiations). -/
def dtC : DateTime :=
  { year := 2025, month := 1, day := 2, hour := 3, minute := 4, second := 6,
    microsecond := 0 }

end Vibespan

namespace Vibespan

/-! ## Theorems about the agents and the orchestrator -/

/-- Evaluation of the summary's `agent_results` list when no agent raises:
only `DataCollector`'s return has a top-level `confidence` key (0.95); the
other five agents keep their confidence nested inside `result`, so
`result.get("confidence", 0.0)` records 0.0 for them. -/
theorem records_noFault (tenant nowIso : String) (env : LLMEnv) (ric : ℕ)
    (data : MetricsPayload) :
    agentNames.map (recordFor tenant nowIso env ric noFault data) =
      [AgentRecord.success "DataCollector" 0.95,
       AgentRecord.success "PatternDetector" 0,
       AgentRecord.success "WorkoutPlanner" 0,
       AgentRecord.success "NutritionPlanner" 0,
       AgentRecord.success "HealthCoach" 0,
       AgentRecord.success "SafetyOfficer" 0] := rfl

/-- Every recorded per-agent confidence lies in `[0,1]`: an error record
carries 0, a success record carries `result.get("confidence", 0.0)`, which is
0.95 for `DataCollector` and 0.0 for the five agents without a top-level
confidence key. -/
theorem recordFor_conf_bounds (tenant nowIso : String) (env : LLMEnv) (ric : ℕ)
    (fault : String → Option String) (data : MetricsPayload) (name : String) :
    0 ≤ (recordFor tenant nowIso env ric fault data name).confOrZero ∧
      (recordFor tenant nowIso env ric fault data name).confOrZero ≤ 1 := by
  unfold recordFor runAgent
  rcases fault name with _ | msg
  · simp only
    split_ifs <;>
      norm_num [DataCollector.process, PatternDetector.process, WorkoutPlanner.process,
        NutritionPlanner.process, HealthCoach.process, SafetyOfficer.process,
        AgentRecord.confOrZero]
  · simp [AgentRecord.confOrZero]

/-- The aggregate `overall_confidence` is nonnegative when every record's
confidence is. -/
theorem overallConfidence_nonneg (l : List AgentRecord)
    (h : ∀ r ∈ l, 0 ≤ r.confOrZero) : 0 ≤ overallConfidence l := by
  unfold overallConfidence
  apply div_nonneg
  · apply List.sum_nonneg
    intro x hx
    obtain ⟨r, hr, rfl⟩ := List.mem_map.1 hx
    exact h r (List.mem_of_mem_filter hr)
  · positivity

/-- The aggregate `overall_confidence` is at most one when every record's
confidence is: the success sum is bounded by the success count, which is
bounded by the `max(1, count)` divisor. -/
theorem overallConfidence_le_one (l : List AgentRecord)
    (h : ∀ r ∈ l, r.confOrZero ≤ 1) : overallConfidence l ≤ 1 := by
  unfold overallConfidence
  rw [div_le_one (by positivity)]
  calc ((successRecords l).map AgentRecord.confOrZero).sum
      ≤ ((successRecords l).map AgentRecord.confOrZero).length • (1:ℚ) := by
        apply List.sum_le_card_nsmul
        intro x hx
        obtain ⟨r, hr, rfl⟩ := List.mem_map.1 hx
        exact h r (List.mem_of_mem_filter hr)
    _ = ((successRecords l).length : ℚ) := by simp
    _ ≤ ((max 1 (successRecords l).length : ℕ) : ℚ) := by
        exact_mod_cast Nat.le_max_right 1 _

/-- With no successful record the empty sum is divided by `max(1, 0) = 1`,
giving exactly 0. -/
theorem overallConfidence_zero (l : List AgentRecord)
    (h : (successRecords l).length = 0) : overallConfidence l = 0 := by
  unfold overallConfidence
  rw [List.length_eq_zero.1 h]
  simp

/-- C1, counterexample: on input `{recovery_score: 20, sleep_duration: 5}`
with no LLM key and no agent failing, the summary's `overall_confidence` is
`19/120 = 0.1583…`, not `0.88`: the orchestrator reads the top-level
`confidence` key of each agent's return, which only `DataCollector` (0.95)
has, so the sum 0.95 is divided by the 6 successes. -/
theorem C1_scenario_counterexample :
    (process_health_data "tenant1" "2025-01-01T00:00:00" envNoKeys 0 noFault
        scenarioMetrics).summary.overall_confidence = 19/120 ∧
    (19/120 : ℚ) ≠ 88/100 := by
  constructor
  · show overallConfidence (agentNames.map (recordFor _ _ _ _ _ _)) = 19/120
    rw [records_noFault]
    norm_num [overallConfidence, successRecords, AgentRecord.isSuccess, AgentRecord.confOrZero,
      List.filter]
  · norm_num

/-- C1, amended: the scenario input yields SafetyOfficer `risk_level`
"medium" with exactly one alert and one warning, WorkoutPlanner
`workout_type` "Recovery", the orchestrator records each successful agent's
`result.confidence or 0.0` (0.95 for `DataCollector`, 0.0 for the five agents
whose confidence is nested inside `result`), and `overall_confidence` is
`19/120`, not the spec's 0.88.  Proved for every tenant, timestamp, LLM
environment and context-store population, configured keys or not. -/
theorem C1_scenario_amended (tenant nowIso : String) (env : LLMEnv) (ric : ℕ) :
    lookupResult (process_health_data tenant nowIso env ric noFault scenarioMetrics)
        "SafetyOfficer" = some (SafetyOfficer.process tenant scenarioMetrics) ∧
    (SafetyOfficer.check scenarioMetrics).risk_level = "medium" ∧
    (SafetyOfficer.check scenarioMetrics).alerts.length = 1 ∧
    (SafetyOfficer.check scenarioMetrics).warnings.length = 1 ∧
    lookupResult (process_health_data tenant nowIso env ric noFault scenarioMetrics)
        "WorkoutPlanner" = some (WorkoutPlanner.process tenant scenarioMetrics) ∧
    (WorkoutPlanner.recommend scenarioMetrics).workout_type = "Recovery" ∧
    (process_health_data tenant nowIso env ric noFault scenarioMetrics).summary.agent_results =
      [AgentRecord.success "DataCollector" 0.95,
       AgentRecord.success "PatternDetector" 0,
       AgentRecord.success "WorkoutPlanner" 0,
       AgentRecord.success "NutritionPlanner" 0,
       AgentRecord.success "HealthCoach" 0,
       AgentRecord.success "SafetyOfficer" 0] ∧
    (process_health_data tenant nowIso env ric noFault scenarioMetrics).summary.overall_confidence
      = 19/120 := by
  refine ⟨rfl, ?_, ?_, ?_, rfl, ?_, records_noFault tenant nowIso env ric scenarioMetrics, ?_⟩
  · norm_num [SafetyOfficer.check, scenarioMetrics, emptyMetrics]
  · norm_num [SafetyOfficer.check, scenarioMetrics, emptyMetrics]
  · norm_num [SafetyOfficer.check, scenarioMetrics, emptyMetrics]
  · norm_num [WorkoutPlanner.recommend, scenarioMetrics, emptyMetrics]
  · show overallConfidence (agentNames.map (recordFor _ _ _ _ _ _)) = 19/120
    rw [records_noFault]
    norm_num [overallConfidence, successRecords, AgentRecord.isSuccess, AgentRecord.confOrZero,
      List.filter]

/-- C2: fail isolation — when exactly one of the six agents raises, the
summary still processes 6 agents, counts 5 successes, records the failing
agent as `{agent, status: "error", error: str(e)}`, and every other agent's
record (confidence included) is unchanged from the all-success run; the
orchestrator call itself is a total function and never raises. -/
theorem C2_fail_isolation (tenant nowIso : String) (env : LLMEnv) (ric : ℕ)
    (data : MetricsPayload) (name msg : String) (hmem : name ∈ agentNames) :
    (process_health_data tenant nowIso env ric
        (fun n => if n = name then some msg else none) data).summary.agents_processed = 6 ∧
    (process_health_data tenant nowIso env ric
        (fun n => if n = name then some msg else none) data).summary.successful_agents = 5 ∧
    findRecord (process_health_data tenant nowIso env ric
        (fun n => if n = name then some msg else none) data).summary.agent_results name
      = some (AgentRecord.error name msg) ∧
    ∀ other ∈ agentNames, other ≠ name →
      findRecord (process_health_data tenant nowIso env ric
          (fun n => if n = name then some msg else none) data).summary.agent_results other
        = findRecord (process_health_data tenant nowIso env ric
            noFault data).summary.agent_results other := by
  simp only [agentNames, List.mem_cons, List.mem_singleton, List.not_mem_nil, or_false] at hmem
  rcases hmem with rfl | rfl | rfl | rfl | rfl | rfl <;>
    refine ⟨rfl, rfl, rfl, ?_⟩ <;>
    · intro other ho hne
      simp only [agentNames, List.mem_cons, List.mem_singleton, List.not_mem_nil, or_false] at ho
      rcases ho with rfl | rfl | rfl | rfl | rfl | rfl <;>
        first
          | exact absurd rfl hne
          | rfl

/-- C2, witness: concrete run in which only `WorkoutPlanner` raises. -/
theorem C2_fail_isolation_witness :
    (process_health_data "t1" "now" envNoKeys 0
        (fun n => if n = "WorkoutPlanner" then some "boom" else none)
        emptyMetrics).summary.agents_processed = 6 ∧
    (process_health_data "t1" "now" envNoKeys 0
        (fun n => if n = "WorkoutPlanner" then some "boom" else none)
        emptyMetrics).summary.successful_agents = 5 ∧
    findRecord (process_health_data "t1" "now" envNoKeys 0
        (fun n => if n = "WorkoutPlanner" then some "boom" else none)
        emptyMetrics).summary.agent_results "WorkoutPlanner"
      = some (AgentRecord.error "WorkoutPlanner" "boom") ∧
    findRecord (process_health_data "t1" "now" envNoKeys 0
        (fun n => if n = "WorkoutPlanner" then some "boom" else none)
        emptyMetrics).summary.agent_results "DataCollector"
      = findRecord (process_health_data "t1" "now" envNoKeys 0
          noFault emptyMetrics).summary.agent_results "DataCollector" := by
  obtain ⟨h1, h2, h3, h4⟩ :=
    C2_fail_isolation "t1" "now" envNoKeys 0 emptyMetrics "WorkoutPlanner" "boom" (by decide)
  exact ⟨h1, h2, h3, h4 "DataCollector" (by decide) (by decide)⟩

/-- C4: for every metrics input and every pattern of agent failures, the
summary's `overall_confidence` lies in `[0, 1]`, and it is exactly 0 when no
agent succeeded (the division is guarded by `max(1, success count)`). -/
theorem C4_confidence_bound (tenant nowIso : String) (env : LLMEnv) (ric : ℕ)
    (fault : String → Option String) (data : MetricsPayload) :
    0 ≤ (process_health_data tenant nowIso env ric fault data).summary.overall_confidence ∧
    (process_health_data tenant nowIso env ric fault data).summary.overall_confidence ≤ 1 ∧
    ((process_health_data tenant nowIso env ric fault data).summary.successful_agents = 0 →
      (process_health_data tenant nowIso env ric fault data).summary.overall_confidence = 0) := by
  have hb : ∀ r ∈ agentNames.map (recordFor tenant nowIso env ric fault data),
      0 ≤ r.confOrZero ∧ r.confOrZero ≤ 1 := by
    intro r hr
    obtain ⟨n, _, rfl⟩ := List.mem_map.1 hr
    exact recordFor_conf_bounds tenant nowIso env ric fault data n
  refine ⟨?_, ?_, ?_⟩
  · exact overallConfidence_nonneg _ (fun r hr => (hb r hr).1)
  · exact overallConfidence_le_one _ (fun r hr => (hb r hr).2)
  · intro h
    exact overallConfidence_zero _ h

/-- C4, witness: a run in which all six agents raise has zero successes and
`overall_confidence = 0`. -/
theorem C4_confidence_bound_witness :
    (process_health_data "t1" "now" envNoKeys 0 (fun _ => some "boom")
        emptyMetrics).summary.successful_agents = 0 ∧
    (process_health_data "t1" "now" envNoKeys 0 (fun _ => some "boom")
        emptyMetrics).summary.overall_confidence = 0 :=
  ⟨by decide,
    (C4_confidence_bound "t1" "now" envNoKeys 0 (fun _ => some "boom") emptyMetrics).2.2
      (by decide)⟩

/-- C5: `_call_llm` returns the deterministic fallback string when no
provider key is configured or every configured provider raises; OpenAI is
consulted first, Anthropic only when OpenAI is unconfigured or raised; a
provider exception never propagates (the model is a total function whose only
outcomes are a provider's response text or the fallback string). -/
theorem C5_llm_fallback (env : LLMEnv) (name prompt context : String) :
    (env.openai_api_key = none → env.anthropic_api_key = none →
      call_llm env name prompt context = fallback_response name) ∧
    ((∀ k, env.openai_api_key = some k →
        ∃ e, env.openai_create k (systemPromptFor name) (userContentFor context prompt)
          = Except.error e) →
      (∀ k, env.anthropic_api_key = some k →
        ∃ e, env.anthropic_create k (systemPromptFor name) (userContentFor context prompt)
          = Except.error e) →
      call_llm env name prompt context = fallback_response name) ∧
    (∀ k t, env.openai_api_key = some k →
      env.openai_create k (systemPromptFor name) (userContentFor context prompt) = Except.ok t →
      call_llm env name prompt context = t) ∧
    (∀ k t, (env.openai_api_key = none ∨
        (∃ k0 e, env.openai_api_key = some k0 ∧
          env.openai_create k0 (systemPromptFor name) (userContentFor context prompt)
            = Except.error e)) →
      env.anthropic_api_key = some k →
      env.anthropic_create k (systemPromptFor name) (userContentFor context prompt)
        = Except.ok t →
      call_llm env name prompt context = t) ∧
    fallback_response "PatternDetector" =
      "AI analysis unavailable. Using rule-based logic for PatternDetector." := by
  refine ⟨?_, ?_, ?_, ?_, rfl⟩
  · intro h1 h2; simp [call_llm, h1, h2]
  · intro h1 h2
    rcases ho : env.openai_api_key with _ | k1
    · rcases ha : env.anthropic_api_key with _ | k2
      · simp [call_llm, ho, ha]
      · obtain ⟨e, he⟩ := h2 k2 ha
        simp [call_llm, ho, ha, he]
    · obtain ⟨e, he⟩ := h1 k1 ho
      rcases ha : env.anthropic_api_key with _ | k2
      · simp [call_llm, ho, ha, he]
      · obtain ⟨e2, he2⟩ := h2 k2 ha
        simp [call_llm, ho, ha, he, he2]
  · intro k t hk hok
    simp [call_llm, hk, hok]
  · intro k t h1 hk hok
    rcases h1 with h1 | ⟨k0, e, hk0, he⟩
    · simp [call_llm, h1, hk, hok]
    · simp [call_llm, hk0, he, hk, hok]

/-- C5, witness: with no key configured, `PatternDetector`'s `_call_llm`
returns exactly the documented fallback string. -/
theorem C5_llm_fallback_witness :
    call_llm envNoKeys "PatternDetector" "some prompt" "some context" =
      "AI analysis unavailable. Using rule-based logic for PatternDetector." := by
  have h := C5_llm_fallback envNoKeys "PatternDetector" "some prompt" "some context"
  exact (h.1 rfl rfl).trans h.2.2.2.2

/-- C6: `WorkoutPlanner.process` returns `workout_type` "High Intensity" for
`recovery_score ≥ 80`, "Moderate Intensity" for `60 ≤ recovery_score < 80`,
"Recovery" below 60, and "Moderate Intensity" when the key is absent (default
75). -/
theorem C6_workoutPlanner_thresholds (tenant : String) (data : MetricsPayload) :
    (∀ rs : ℚ, data.recovery_score = some rs →
      ((80 ≤ rs →
          (WorkoutPlanner.process tenant data).result.workoutType = some "High Intensity") ∧
       (60 ≤ rs ∧ rs < 80 →
          (WorkoutPlanner.process tenant data).result.workoutType = some "Moderate Intensity") ∧
       (rs < 60 →
          (WorkoutPlanner.process tenant data).result.workoutType = some "Recovery"))) ∧
    (data.recovery_score = none →
      (WorkoutPlanner.process tenant data).result.workoutType = some "Moderate Intensity") := by
  constructor
  · intro rs hrs
    refine ⟨fun h => ?_, fun h => ?_, fun h => ?_⟩
    · simp [WorkoutPlanner.process, WorkoutPlanner.recommend, AgentOutput.workoutType, hrs, h,
        ge_iff_le]
    · simp [WorkoutPlanner.process, WorkoutPlanner.recommend, AgentOutput.workoutType, hrs,
        ge_iff_le, not_le.2 h.2, h.1]
    · simp [WorkoutPlanner.process, WorkoutPlanner.recommend, AgentOutput.workoutType, hrs,
        ge_iff_le, not_le.2 h, not_le.2 (lt_trans h (by norm_num : (60:ℚ) < 80))]
  · intro h
    norm_num [WorkoutPlanner.process, WorkoutPlanner.recommend, AgentOutput.workoutType, h]

/-- C6, witness: the claim's concrete inputs 85, 80, 65, 60, 50 and the
missing-key default. -/
theorem C6_workoutPlanner_thresholds_witness :
    (WorkoutPlanner.process "t1"
        { emptyMetrics with recovery_score := some 85 }).result.workoutType
      = some "High Intensity" ∧
    (WorkoutPlanner.process "t1"
        { emptyMetrics with recovery_score := some 80 }).result.workoutType
      = some "High Intensity" ∧
    (WorkoutPlanner.process "t1"
        { emptyMetrics with recovery_score := some 65 }).result.workoutType
      = some "Moderate Intensity" ∧
    (WorkoutPlanner.process "t1"
        { emptyMetrics with recovery_score := some 60 }).result.workoutType
      = some "Moderate Intensity" ∧
    (WorkoutPlanner.process "t1"
        { emptyMetrics with recovery_score := some 50 }).result.workoutType
      = some "Recovery" ∧
    (WorkoutPlanner.process "t1" emptyMetrics).result.workoutType
      = some "Moderate Intensity" :=
  ⟨((C6_workoutPlanner_thresholds "t1" _).1 85 rfl).1 (by decide),
   ((C6_workoutPlanner_thresholds "t1" _).1 80 rfl).1 (by decide),
   ((C6_workoutPlanner_thresholds "t1" _).1 65 rfl).2.1 ⟨by decide, by decide⟩,
   ((C6_workoutPlanner_thresholds "t1" _).1 60 rfl).2.1 ⟨by decide, by decide⟩,
   ((C6_workoutPlanner_thresholds "t1" _).1 50 rfl).2.2 (by decide),
   (C6_workoutPlanner_thresholds "t1" emptyMetrics).2 rfl⟩

/-- C7: `SafetyOfficer.process` raises an alert iff `recovery_score`
(default 100) is strictly below 30, a warning iff `sleep_duration` (default
8) is strictly below 6, and `risk_level` is "medium" exactly when an alert
exists, else "low"; including the claim's boundary inputs 29, 30, 5.9 and
6. -/
theorem C7_safetyOfficer_thresholds (tenant : String) (data : MetricsPayload) :
    ((SafetyOfficer.check data).alerts ≠ [] ↔ data.recovery_score.getD 100 < 30) ∧
    ((SafetyOfficer.check data).warnings ≠ [] ↔ data.sleep_duration.getD 8 < 6) ∧
    ((SafetyOfficer.check data).risk_level =
      if (SafetyOfficer.check data).alerts = [] then "low" else "medium") ∧
    ((SafetyOfficer.process tenant data).result.safetyStatus = some (SafetyOfficer.check data)) ∧
    ((SafetyOfficer.check { emptyMetrics with recovery_score := some 29 }).alerts ≠ [] ∧
      (SafetyOfficer.check { emptyMetrics with recovery_score := some 29 }).risk_level
        = "medium") ∧
    ((SafetyOfficer.check { emptyMetrics with recovery_score := some 30 }).alerts = [] ∧
      (SafetyOfficer.check { emptyMetrics with recovery_score := some 30 }).risk_level
        = "low") ∧
    (SafetyOfficer.check { emptyMetrics with sleep_duration := some 5.9 }).warnings ≠ [] ∧
    (SafetyOfficer.check { emptyMetrics with sleep_duration := some 6 }).warnings = [] := by
  refine ⟨?_, ?_, ?_, ?_, ?_, ?_, ?_, ?_⟩
  · by_cases h : data.recovery_score.getD 100 < 30 <;> simp [SafetyOfficer.check, h]
  · by_cases h : data.sleep_duration.getD 8 < 6 <;>
      by_cases h2 : data.recovery_score.getD 100 < 30 <;> simp [SafetyOfficer.check, h, h2]
  · by_cases h : data.recovery_score.getD 100 < 30 <;> simp [SafetyOfficer.check, h]
  · simp [SafetyOfficer.process, AgentOutput.safetyStatus]
  · norm_num [SafetyOfficer.check, emptyMetrics]
  · norm_num [SafetyOfficer.check, emptyMetrics]
  · norm_num [SafetyOfficer.check, emptyMetrics]
  · norm_num [SafetyOfficer.check, emptyMetrics]


/-! ## Theorems about the virtual file system, JSON round-trip and base64 -/

theorem b64index_b64char : ∀ n < 64, b64index (b64char n) = n := by decide

theorem b64char_ne_pad : ∀ n < 64, b64char n ≠ '=' := by decide

theorem b64_roundtrip : ∀ bs : List ℕ, (∀ b ∈ bs, b < 256) →
    b64decodeChars (b64encodeBytes bs) = bs := by
  intro bs
  induction bs using b64encodeBytes.induct with
  | case1 => intro _; rfl
  | case2 a =>
    intro h
    have ha : a < 256 := h a (by simp)
    simp only [b64encodeBytes, b64decodeChars, b64group, List.append_nil,
      eq_self_iff_true, if_true]
    rw [b64index_b64char (a / 4) (by omega), b64index_b64char (a % 4 * 16) (by omega)]
    simp only [List.cons.injEq, and_true]
    omega
  | case3 a b =>
    intro h
    have ha : a < 256 := h a (by simp)
    have hb : b < 256 := h b (by simp)
    simp only [b64encodeBytes, b64decodeChars, b64group, List.append_nil,
      eq_self_iff_true, if_true, if_neg (b64char_ne_pad (b % 16 * 4) (by omega))]
    rw [b64index_b64char (a / 4) (by omega), b64index_b64char (a % 4 * 16 + b / 16) (by omega),
      b64index_b64char (b % 16 * 4) (by omega)]
    simp only [List.cons.injEq, and_true]
    omega
  | case4 a b c rest ih =>
    intro h
    have ha : a < 256 := h a (by simp)
    have hb : b < 256 := h b (by simp)
    have hc : c < 256 := h c (by simp)
    simp only [b64encodeBytes, b64decodeChars, b64group,
      if_neg (b64char_ne_pad (b % 16 * 4 + c / 64) (by omega)),
      if_neg (b64char_ne_pad (c % 64) (by omega))]
    rw [b64index_b64char (a / 4) (by omega), b64index_b64char (a % 4 * 16 + b / 16) (by omega),
      b64index_b64char (b % 16 * 4 + c / 64) (by omega), b64index_b64char (c % 64) (by omega)]
    rw [ih (fun x hx => h x (by simp [hx]))]
    simp only [List.cons_append, List.nil_append, List.cons.injEq, and_true, true_and]
    omega

theorem natCharsAux_all_digits (fuel n : ℕ) :
    ∀ c ∈ natCharsAux fuel n, ∃ d, d < 10 ∧ c = Char.ofNat (48 + d) := by
  induction fuel generalizing n with
  | zero => simp [natCharsAux]
  | succ fuel ih =>
    intro c hc
    by_cases h : n < 10
    · simp only [natCharsAux, if_pos h, List.mem_singleton] at hc
      exact ⟨n, h, hc⟩
    · simp only [natCharsAux, if_neg h, List.mem_append, List.mem_singleton] at hc
      rcases hc with hc | hc
      · exact ih (n / 10) c hc
      · exact ⟨n % 10, Nat.mod_lt n (by omega), hc⟩

theorem natCharsAux_ne_nil (fuel n : ℕ) (h : 0 < fuel) : natCharsAux fuel n ≠ [] := by
  cases fuel with
  | zero => omega
  | succ fuel =>
    by_cases h2 : n < 10
    · simp [natCharsAux, h2]
    · simp [natCharsAux, h2]

theorem natChars_head (n : ℕ) :
    ∃ d tl, d < 10 ∧ natChars n = Char.ofNat (48 + d) :: tl := by
  rcases he : natChars n with _ | ⟨c, tl⟩
  · exact absurd he (natCharsAux_ne_nil (n + 1) n (by omega))
  · obtain ⟨d, hd, hc⟩ := natCharsAux_all_digits (n + 1) n c (by rw [show natCharsAux (n+1) n = natChars n from rfl, he]; simp)
    exact ⟨d, tl, hd, by rw [← hc]⟩

theorem digitChar_facts (d : ℕ) (h : d < 10) :
    isDigitChar (Char.ofNat (48 + d)) = true ∧
    isWsChar (Char.ofNat (48 + d)) = false ∧
    Char.ofNat (48 + d) ≠ 'n' ∧ Char.ofNat (48 + d) ≠ 't' ∧ Char.ofNat (48 + d) ≠ 'f' ∧
    Char.ofNat (48 + d) ≠ '"' ∧ Char.ofNat (48 + d) ≠ '[' ∧ Char.ofNat (48 + d) ≠ '\x7b' ∧
    Char.ofNat (48 + d) ≠ '-' ∧ (Char.ofNat (48 + d)).toNat = 48 + d := by
  interval_cases d <;> exact ⟨rfl, rfl, by decide, by decide, by decide, by decide, by decide,
    by decide, by decide, by decide⟩

theorem parseDigits_stop (acc : ℕ) (rest : List Char) (h : headDigit rest = false) :
    parseDigits acc rest = (acc, rest) := by
  cases rest with
  | nil => rfl
  | cons c cs =>
    simp only [headDigit] at h
    simp [parseDigits, h]

theorem parseDigits_natCharsAux (fuel : ℕ) : ∀ (n : ℕ), n < 10 ^ fuel → ∀ (acc : ℕ) (rest : List Char),
    parseDigits acc (natCharsAux fuel n ++ rest)
      = parseDigits (acc * 10 ^ (natCharsAux fuel n).length + n) rest := by
  induction fuel with
  | zero =>
    intro n hn acc rest
    have : n = 0 := by simpa using hn
    subst this
    simp [natCharsAux]
  | succ fuel ih =>
    intro n hn acc rest
    by_cases h : n < 10
    · obtain ⟨hdig, -, -, -, -, -, -, -, -, htn⟩ := digitChar_facts n h
      simp only [natCharsAux, if_pos h, List.singleton_append, parseDigits, hdig, if_true,
        List.length_singleton, pow_one, htn]
      congr 2
      omega
    · have hdiv : n / 10 < 10 ^ fuel := by
        rw [pow_succ] at hn
        omega
      obtain ⟨hdig, -, -, -, -, -, -, -, -, htn⟩ := digitChar_facts (n % 10) (by omega)
      simp only [natCharsAux, if_neg h, List.append_assoc, List.singleton_append]
      rw [ih (n / 10) hdiv acc]
      simp only [parseDigits, hdig, if_true, htn, List.length_append, List.length_singleton]
      have e : (acc * 10 ^ (natCharsAux fuel (n / 10)).length + n / 10) * 10 + (48 + n % 10 - 48)
          = acc * 10 ^ ((natCharsAux fuel (n / 10)).length + 1) + n := by
        rw [pow_succ]
        ring_nf
        omega
      rw [e]

theorem parseDigits_natChars (n acc : ℕ) (rest : List Char) (h : headDigit rest = false) :
    parseDigits acc (natChars n ++ rest) = (acc * 10 ^ (natChars n).length + n, rest) := by
  rw [natChars, parseDigits_natCharsAux (n + 1) n
      (lt_of_lt_of_le (Nat.lt_pow_self (by omega) n) (Nat.pow_le_pow_right (by omega) (by omega))),
    parseDigits_stop _ _ h]

theorem hexVal_hexDigitChar (m : ℕ) (h : m < 16) : hexVal (hexDigitChar m) = some m := by
  interval_cases m <;> decide

theorem escapeChar_length_pos (c : Char) : 0 < (escapeChar c).length := by
  unfold escapeChar
  split_ifs <;> simp

theorem length_le_escaped (l : List Char) : l.length ≤ (l.map escapeChar).flatten.length := by
  induction l with
  | nil => simp
  | cons c tl ih =>
    simp only [List.map_cons, List.flatten_cons, List.length_append, List.length_cons]
    have := escapeChar_length_pos c
    omega

theorem parseStringBody_escape (l : List Char) : ∀ (fuel : ℕ), l.length < fuel →
    ∀ (rest : List Char), (∀ c ∈ l, c.toNat < 128) →
    parseStringBody fuel ((l.map escapeChar).flatten ++ ('"' :: rest)) = some (l, rest) := by
  induction l with
  | nil =>
    intro fuel hf rest _
    match fuel, hf with
    | f + 1, _ => rfl
  | cons c tl ih =>
    intro fuel hf rest h
    match fuel, hf with
    | f + 1, hf =>
    have hc : c.toNat < 128 := h c (List.mem_cons_self c tl)
    have ihtl := ih f (by simp at hf ⊢; omega) rest (fun x hx => h x (List.mem_cons_of_mem c hx))
    simp only [List.map_cons, List.flatten_cons, List.append_assoc]
    by_cases h1 : c = '"'
    · subst h1
      rw [show escapeChar '"' = ['\\', '"'] from rfl]
      rw [show parseStringBody (f + 1)
            (['\\', '"'] ++ ((tl.map escapeChar).flatten ++ ('"' :: rest)))
          = (parseStringBody f ((tl.map escapeChar).flatten ++ ('"' :: rest))).map
              (fun p => ('"' :: p.1, p.2)) from rfl, ihtl]
      rfl
    · by_cases h2 : c = '\\'
      · subst h2
        rw [show escapeChar '\\' = ['\\', '\\'] from rfl]
        rw [show parseStringBody (f + 1)
              (['\\', '\\'] ++ ((tl.map escapeChar).flatten ++ ('"' :: rest)))
            = (parseStringBody f ((tl.map escapeChar).flatten ++ ('"' :: rest))).map
                (fun p => ('\\' :: p.1, p.2)) from rfl, ihtl]
        rfl
      · by_cases h3 : c = '\n'
        · subst h3
          rw [show escapeChar '\n' = ['\\', 'n'] from rfl]
          rw [show parseStringBody (f + 1)
                (['\\', 'n'] ++ ((tl.map escapeChar).flatten ++ ('"' :: rest)))
              = (parseStringBody f ((tl.map escapeChar).flatten ++ ('"' :: rest))).map
                  (fun p => ('\n' :: p.1, p.2)) from rfl, ihtl]
          rfl
        · by_cases h4 : c = '\t'
          · subst h4
            rw [show escapeChar '\t' = ['\\', 't'] from rfl]
            rw [show parseStringBody (f + 1)
                  (['\\', 't'] ++ ((tl.map escapeChar).flatten ++ ('"' :: rest)))
                = (parseStringBody f ((tl.map escapeChar).flatten ++ ('"' :: rest))).map
                    (fun p => ('\t' :: p.1, p.2)) from rfl, ihtl]
            rfl
          · by_cases h5 : c = '\r'
            · subst h5
              rw [show escapeChar '\r' = ['\\', 'r'] from rfl]
              rw [show parseStringBody (f + 1)
                    (['\\', 'r'] ++ ((tl.map escapeChar).flatten ++ ('"' :: rest)))
                  = (parseStringBody f ((tl.map escapeChar).flatten ++ ('"' :: rest))).map
                      (fun p => ('\r' :: p.1, p.2)) from rfl, ihtl]
              rfl
            · by_cases h6 : c.toNat = 8
              · have hcc : c = Char.ofNat 8 := by rw [← h6, Char.ofNat_toNat]
                subst hcc
                rw [show escapeChar (Char.ofNat 8) = ['\\', 'b'] from rfl]
                rw [show parseStringBody (f + 1)
                      (['\\', 'b'] ++ ((tl.map escapeChar).flatten ++ ('"' :: rest)))
                    = (parseStringBody f ((tl.map escapeChar).flatten ++ ('"' :: rest))).map
                        (fun p => (Char.ofNat 8 :: p.1, p.2)) from rfl, ihtl]
                rfl
              · by_cases h7 : c.toNat = 12
                · have hcc : c = Char.ofNat 12 := by rw [← h7, Char.ofNat_toNat]
                  subst hcc
                  rw [show escapeChar (Char.ofNat 12) = ['\\', 'f'] from rfl]
                  rw [show parseStringBody (f + 1)
                        (['\\', 'f'] ++ ((tl.map escapeChar).flatten ++ ('"' :: rest)))
                      = (parseStringBody f ((tl.map escapeChar).flatten ++ ('"' :: rest))).map
                          (fun p => (Char.ofNat 12 :: p.1, p.2)) from rfl, ihtl]
                  rfl
                · by_cases h8 : c.toNat < 32
                  · have hesc : escapeChar c = ['\\', 'u', '0', '0',
                        hexDigitChar (c.toNat / 16), hexDigitChar (c.toNat % 16)] := by
                      simp only [escapeChar, if_neg h1, if_neg h2, if_neg h3, if_neg h4,
                        if_neg h5, if_neg h6, if_neg h7, if_pos h8]
                    rw [hesc]
                    have hstep : parseStringBody (f + 1)
                        (['\\', 'u', '0', '0', hexDigitChar (c.toNat / 16),
                            hexDigitChar (c.toNat % 16)] ++
                          ((tl.map escapeChar).flatten ++ ('"' :: rest)))
                        = match hexVal '0', hexVal '0', hexVal (hexDigitChar (c.toNat / 16)),
                            hexVal (hexDigitChar (c.toNat % 16)) with
                          | some a, some b, some c2, some d =>
                            (parseStringBody f
                              ((tl.map escapeChar).flatten ++ ('"' :: rest))).map
                              (fun p =>
                                (Char.ofNat (((a * 16 + b) * 16 + c2) * 16 + d) :: p.1, p.2))
                          | _, _, _, _ => none := rfl
                    rw [hstep, hexVal_hexDigitChar (c.toNat / 16) (by omega),
                      hexVal_hexDigitChar (c.toNat % 16) (by omega)]
                    show (parseStringBody f ((tl.map escapeChar).flatten ++ ('"' :: rest))).map
                        (fun p => (Char.ofNat (((0 * 16 + 0) * 16 + c.toNat / 16) * 16
                          + c.toNat % 16) :: p.1, p.2)) = some (c :: tl, rest)
                    rw [ihtl]
                    have he : ((0 * 16 + 0) * 16 + c.toNat / 16) * 16 + c.toNat % 16
                        = c.toNat := by omega
                    rw [he, Char.ofNat_toNat]
                    rfl
                  · have hesc : escapeChar c = [c] := by
                      simp only [escapeChar, if_neg h1, if_neg h2, if_neg h3, if_neg h4,
                        if_neg h5, if_neg h6, if_neg h7, if_neg h8]
                    rw [hesc, List.singleton_append]
                    rw [show parseStringBody (f + 1)
                          (c :: ((tl.map escapeChar).flatten ++ ('"' :: rest)))
                        = if c = '"' then
                            some ([], (tl.map escapeChar).flatten ++ ('"' :: rest))
                          else if c = '\\' then
                            match (tl.map escapeChar).flatten ++ ('"' :: rest) with
                            | [] => none
                            | e :: cs2 =>
                              if e = 'u' then
                                match cs2 with
                                | k1 :: k2 :: k3 :: k4 :: cs3 =>
                                  match hexVal k1, hexVal k2, hexVal k3, hexVal k4 with
                                  | some a, some b, some c2, some d =>
                                    (parseStringBody f cs3).map
                                      (fun p =>
                                        (Char.ofNat (((a * 16 + b) * 16 + c2) * 16 + d)
                                          :: p.1, p.2))
                                  | _, _, _, _ => none
                                | _ => none
                              else
                                match escDecode e with
                                | some r =>
                                  (parseStringBody f cs2).map (fun p => (r :: p.1, p.2))
                                | none => none
                          else (parseStringBody f
                              ((tl.map escapeChar).flatten ++ ('"' :: rest))).map
                            (fun p => (c :: p.1, p.2)) from rfl]
                    rw [if_neg h1, if_neg h2, ihtl]
                    rfl

theorem skipWs_cons_not_ws (c : Char) (l : List Char) (h : isWsChar c = false) :
    skipWs (c :: l) = c :: l := by
  simp [skipWs, h]

theorem parseValue_quote (d : ℕ) (cs1 : List Char) :
    parseValue (d + 1) ('"' :: cs1)
      = (parseStringBody (cs1.length + 1) cs1).map
          (fun p => (PyVal.pstr (String.mk p.1), p.2)) := rfl

theorem parseValue_lbracket (d : ℕ) (cs1 : List Char) :
    parseValue (d + 1) ('[' :: cs1)
      = match skipWs cs1 with
        | ']' :: r => some (PyVal.parr [], r)
        | cs2 => (parseItems d cs2).map (fun p => (PyVal.parr p.1, p.2)) := rfl

theorem parseValue_lbrace (d : ℕ) (cs1 : List Char) :
    parseValue (d + 1) ('\x7b' :: cs1)
      = match skipWs cs1 with
        | '\x7d' :: r => some (PyVal.pobj [], r)
        | cs2 => (parseMembers d cs2).map (fun p => (PyVal.pobj p.1, p.2)) := rfl

theorem parseValue_minus (d : ℕ) (cs1 : List Char) :
    parseValue (d + 1) ('-' :: cs1)
      = match cs1 with
        | c2 :: cs2 =>
          if isDigitChar c2 then
            some (PyVal.pint (-((parseDigits 0 (c2 :: cs2)).1 : ℤ)),
              (parseDigits 0 (c2 :: cs2)).2)
          else none
        | [] => none := rfl

theorem parseValue_digit (d : ℕ) (c : Char) (cs1 : List Char)
    (hd : ∃ m, m < 10 ∧ c = Char.ofNat (48 + m)) :
    parseValue (d + 1) (c :: cs1)
      = some (PyVal.pint ((parseDigits 0 (c :: cs1)).1 : ℤ), (parseDigits 0 (c :: cs1)).2) := by
  obtain ⟨m, hm, rfl⟩ := hd
  interval_cases m <;> rfl

theorem dumpsItems_cons_decomp (x : PyVal) (xs : List PyVal) :
    ∃ T, dumpsItems (x :: xs) = dumpsChars x ++ T := by
  cases xs with
  | nil => exact ⟨[], (List.append_nil _).symm⟩
  | cons y t => exact ⟨_, rfl⟩

theorem digitChar_class (m : ℕ) (h : m < 10) :
    isWsChar (Char.ofNat (48 + m)) = false ∧ Char.ofNat (48 + m) ≠ ']' ∧
      Char.ofNat (48 + m) ≠ '\x7d' := by
  interval_cases m <;> exact ⟨rfl, by decide, by decide⟩

theorem dumpsChars_pint (n : ℤ) : dumpsChars (PyVal.pint n) = (intStr n).data := rfl

theorem dumpsChars_head (v : PyVal) :
    ∃ c tl, dumpsChars v = c :: tl ∧ isWsChar c = false ∧ c ≠ ']' ∧ c ≠ '\x7d' := by
  cases v with
  | pnull => exact ⟨'n', _, rfl, rfl, by decide, by decide⟩
  | pbool b =>
    cases b with
    | false => exact ⟨'f', _, rfl, rfl, by decide, by decide⟩
    | true => exact ⟨'t', _, rfl, rfl, by decide, by decide⟩
  | pint n =>
    rw [dumpsChars_pint]
    by_cases hn : n < 0
    · exact ⟨'-', natChars n.natAbs, by simp [intStr, hn], rfl, by decide, by decide⟩
    · obtain ⟨m, tl, hm, hnat⟩ := natChars_head n.toNat
      obtain ⟨hws, hrb, hcb⟩ := digitChar_class m hm
      exact ⟨Char.ofNat (48 + m), tl, by simp [intStr, hn, hnat], hws, hrb, hcb⟩
  | pstr s => exact ⟨'"', _, rfl, rfl, by decide, by decide⟩
  | parr xs =>
    cases xs with
    | nil => exact ⟨'[', _, rfl, rfl, by decide, by decide⟩
    | cons x t => exact ⟨'[', _, rfl, rfl, by decide, by decide⟩
  | pobj kvs =>
    cases kvs with
    | nil => exact ⟨'\x7b', _, rfl, rfl, by decide, by decide⟩
    | cons kv t => exact ⟨'\x7b', _, rfl, rfl, by decide, by decide⟩

theorem hexDigitChar_ascii (m : ℕ) (h : m < 16) : (hexDigitChar m).toNat < 128 := by
  interval_cases m <;> decide

theorem mem_escapeChar_ascii (c : Char) (hc : c.toNat < 128) :
    ∀ x ∈ escapeChar c, x.toNat < 128 := by
  intro x hx
  unfold escapeChar at hx
  split_ifs at hx with h1 h2 h3 h4 h5 h6 h7 h8
  all_goals simp only [List.mem_cons, List.mem_singleton, List.not_mem_nil, or_false] at hx
  · rcases hx with rfl | rfl <;> decide
  · rcases hx with rfl | rfl <;> decide
  · rcases hx with rfl | rfl <;> decide
  · rcases hx with rfl | rfl <;> decide
  · rcases hx with rfl | rfl <;> decide
  · rcases hx with rfl | rfl <;> decide
  · rcases hx with rfl | rfl <;> decide
  · rcases hx with rfl | rfl | rfl | rfl | rfl | rfl
    · decide
    · decide
    · decide
    · decide
    · exact hexDigitChar_ascii _ (by omega)
    · exact hexDigitChar_ascii _ (by omega)
  · rcases hx with rfl
    exact hc

theorem intStr_ascii (n : ℤ) : ∀ c ∈ (intStr n).data, c.toNat < 128 := by
  intro c hc
  unfold intStr at hc
  split_ifs at hc with hn
  all_goals simp only [List.mem_cons] at hc
  · rcases hc with rfl | hc
    · decide
    · obtain ⟨m, hm, rfl⟩ := natCharsAux_all_digits _ _ c hc
      have := (digitChar_facts m hm).2.2.2.2.2.2.2.2.2
      omega
  · obtain ⟨m, hm, rfl⟩ := natCharsAux_all_digits _ _ c hc
    have := (digitChar_facts m hm).2.2.2.2.2.2.2.2.2
    omega

theorem escapeString_ascii (s : String) (h : asciiString s = true) :
    ∀ c ∈ escapeString s, c.toNat < 128 := by
  intro c hc
  unfold escapeString at hc
  simp only [List.mem_flatten, List.mem_map] at hc
  obtain ⟨piece, ⟨x, hx, rfl⟩, hcp⟩ := hc
  have hxa : x.toNat < 128 := by
    simp only [asciiString, List.all_eq_true, asciiChar, decide_eq_true_eq] at h
    exact h x hx
  exact mem_escapeChar_ascii x hxa c hcp

mutual

theorem dumpsChars_ascii : (v : PyVal) → wfV v = true → ∀ c ∈ dumpsChars v, c.toNat < 128
  | PyVal.pnull, _, c, hc => by
    simp only [dumpsChars] at hc
    fin_cases hc <;> decide
  | PyVal.pbool true, _, c, hc => by
    simp only [dumpsChars] at hc
    fin_cases hc <;> decide
  | PyVal.pbool false, _, c, hc => by
    simp only [dumpsChars] at hc
    fin_cases hc <;> decide
  | PyVal.pint n, _, c, hc => intStr_ascii n c hc
  | PyVal.pstr s, h, c, hc => by
    simp only [dumpsChars] at hc
    rcases List.mem_cons.1 hc with rfl | hc2
    · decide
    rcases List.mem_append.1 hc2 with hc3 | hc3
    · exact escapeString_ascii s h c hc3
    rcases List.mem_singleton.1 hc3 with rfl
    decide
  | PyVal.parr [], _, c, hc => by
    simp only [dumpsChars] at hc
    fin_cases hc <;> decide
  | PyVal.parr (x :: xs), h, c, hc => by
    simp only [dumpsChars] at hc
    rcases List.mem_cons.1 hc with rfl | hc2
    · decide
    rcases List.mem_append.1 hc2 with hc3 | hc3
    · exact dumpsItems_ascii (x :: xs) h c hc3
    rcases List.mem_singleton.1 hc3 with rfl
    decide
  | PyVal.pobj [], _, c, hc => by
    simp only [dumpsChars] at hc
    fin_cases hc <;> decide
  | PyVal.pobj (kv :: kvs), h, c, hc => by
    simp only [wfV, Bool.and_eq_true] at h
    simp only [dumpsChars] at hc
    rcases List.mem_cons.1 hc with rfl | hc2
    · decide
    rcases List.mem_append.1 hc2 with hc3 | hc3
    · exact dumpsMembers_ascii (kv :: kvs) h.1 c hc3
    rcases List.mem_singleton.1 hc3 with rfl
    decide

theorem dumpsItems_ascii : (xs : List PyVal) → wfItems xs = true → ∀ c ∈ dumpsItems xs, c.toNat < 128
  | [], _, c, hc => by simp [dumpsItems] at hc
  | [x], h, c, hc => by
    simp only [wfItems, Bool.and_eq_true] at h
    simp only [dumpsItems] at hc
    exact dumpsChars_ascii x h.1 c hc
  | x :: y :: t, h, c, hc => by
    simp only [wfItems, Bool.and_eq_true] at h
    simp only [dumpsItems] at hc
    rcases List.mem_append.1 hc with hc2 | hc2
    · exact dumpsChars_ascii x h.1 c hc2
    rcases List.mem_cons.1 hc2 with rfl | hc3
    · decide
    rcases List.mem_cons.1 hc3 with rfl | hc4
    · decide
    exact dumpsItems_ascii (y :: t)
      (by simp only [wfItems, Bool.and_eq_true]; exact h.2) c hc4

theorem dumpsMembers_ascii :
    (kvs : List (String × PyVal)) → wfMembers kvs = true → ∀ c ∈ dumpsMembers kvs, c.toNat < 128
  | [], _, c, hc => by simp [dumpsMembers] at hc
  | [(k, v)], h, c, hc => by
    simp only [wfMembers, Bool.and_eq_true] at h
    simp only [dumpsMembers] at hc
    rcases List.mem_cons.1 hc with rfl | hc2
    · decide
    rcases List.mem_append.1 hc2 with hc3 | hc3
    · exact escapeString_ascii k h.1.1 c hc3
    rcases List.mem_cons.1 hc3 with rfl | hc4
    · decide
    rcases List.mem_cons.1 hc4 with rfl | hc5
    · decide
    rcases List.mem_cons.1 hc5 with rfl | hc6
    · decide
    exact dumpsChars_ascii v h.1.2 c hc6
  | (k, v) :: m :: t, h, c, hc => by
    simp only [wfMembers, Bool.and_eq_true] at h
    simp only [dumpsMembers] at hc
    rcases List.mem_append.1 hc with hc1 | hc1
    · rcases List.mem_cons.1 hc1 with rfl | hc2
      · decide
      rcases List.mem_append.1 hc2 with hc3 | hc3
      · exact escapeString_ascii k h.1.1 c hc3
      rcases List.mem_cons.1 hc3 with rfl | hc4
      · decide
      rcases List.mem_cons.1 hc4 with rfl | hc5
      · decide
      rcases List.mem_cons.1 hc5 with rfl | hc6
      · decide
      exact dumpsChars_ascii v h.1.2 c hc6
    · rcases List.mem_cons.1 hc1 with rfl | hc2
      · decide
      rcases List.mem_cons.1 hc2 with rfl | hc3
      · decide
      exact dumpsMembers_ascii (m :: t) (by
        rcases m with ⟨k2, v2⟩
        simp only [wfMembers, Bool.and_eq_true]
        exact h.2) c hc3

end

theorem costV_pos (v : PyVal) : 1 ≤ costV v := by
  cases v <;> simp [costV]

theorem natChars_length_pos (n : ℕ) : 0 < (natChars n).length :=
  List.length_pos.2 (natCharsAux_ne_nil (n + 1) n (by omega))

theorem intStr_length_pos (n : ℤ) : 0 < (intStr n).data.length := by
  unfold intStr
  split_ifs with hn
  · simp
  · simpa using natChars_length_pos n.toNat

mutual

theorem costV_le_len : (v : PyVal) → costV v ≤ (dumpsChars v).length
  | PyVal.pnull => by simp [costV, dumpsChars]
  | PyVal.pbool true => by simp [costV, dumpsChars]
  | PyVal.pbool false => by simp [costV, dumpsChars]
  | PyVal.pint n => by
    have := intStr_length_pos n
    simp only [costV, dumpsChars_pint]
    omega
  | PyVal.pstr s => by simp [costV, dumpsChars]
  | PyVal.parr [] => by simp [costV, costItems, dumpsChars]
  | PyVal.parr (x :: xs) => by
    have h := costItems_le_len (x :: xs)
    simp only [costV, dumpsChars, List.length_cons, List.length_append,
      List.length_singleton]
    omega
  | PyVal.pobj [] => by simp [costV, costMembers, dumpsChars]
  | PyVal.pobj (kv :: kvs) => by
    have h := costMembers_le_len (kv :: kvs)
    simp only [costV, dumpsChars, List.length_cons, List.length_append,
      List.length_singleton]
    omega

theorem costItems_le_len : (xs : List PyVal) → costItems xs ≤ (dumpsItems xs).length + 1
  | [] => by simp [costItems, dumpsItems]
  | [x] => by
    have h := costV_le_len x
    simp only [costItems, dumpsItems]
    omega
  | x :: y :: t => by
    have h1 := costV_le_len x
    have h2 := costItems_le_len (y :: t)
    simp only [costItems] at h2 ⊢
    simp only [dumpsItems, List.length_append, List.length_cons]
    omega

theorem costMembers_le_len :
    (kvs : List (String × PyVal)) → costMembers kvs ≤ (dumpsMembers kvs).length + 1
  | [] => by simp [costMembers, dumpsMembers]
  | [(k, v)] => by
    have h := costV_le_len v
    simp only [costMembers, dumpsMembers, List.length_cons, List.length_append]
    omega
  | (k, v) :: m :: t => by
    have h1 := costV_le_len v
    have h2 := costMembers_le_len (m :: t)
    simp only [costMembers] at h2 ⊢
    simp only [dumpsMembers, List.length_cons, List.length_append]
    omega

end

theorem parseItems_succ (e : ℕ) (cs : List Char) :
    parseItems (e + 1) cs
      = match parseValue e cs with
        | none => none
        | some (v, r) =>
          match skipWs r with
          | ',' :: r2 => (parseItems e (skipWs r2)).map (fun p => (v :: p.1, p.2))
          | ']' :: r2 => some ([v], r2)
          | _ => none := rfl

theorem parseMembers_succ (e : ℕ) (cs : List Char) :
    parseMembers (e + 1) cs
      = match cs with
        | '"' :: cs1 =>
          match parseStringBody (cs1.length + 1) cs1 with
          | none => none
          | some (k, r) =>
            match skipWs r with
            | ':' :: r2 =>
              match parseValue e (skipWs r2) with
              | none => none
              | some (v, r3) =>
                match skipWs r3 with
                | ',' :: r4 =>
                  (parseMembers e (skipWs r4)).map (fun p => ((String.mk k, v) :: p.1, p.2))
                | '\x7d' :: r4 => some ([(String.mk k, v)], r4)
                | _ => none
            | _ => none
        | _ => none := rfl

theorem parseMembers_succ_quote (e : ℕ) (cs1 : List Char) :
    parseMembers (e + 1) ('"' :: cs1)
      = match parseStringBody (cs1.length + 1) cs1 with
        | none => none
        | some (k, r) =>
          match skipWs r with
          | ':' :: r2 =>
            match parseValue e (skipWs r2) with
            | none => none
            | some (v, r3) =>
              match skipWs r3 with
              | ',' :: r4 =>
                (parseMembers e (skipWs r4)).map (fun p => ((String.mk k, v) :: p.1, p.2))
              | '\x7d' :: r4 => some ([(String.mk k, v)], r4)
              | _ => none
          | _ => none := rfl

theorem dumpsMembers_cons_decomp (m : String × PyVal) (t : List (String × PyVal)) :
    ∃ T, dumpsMembers (m :: t) = '"' :: T := by
  rcases m with ⟨k, v⟩
  cases t with
  | nil => exact ⟨_, rfl⟩
  | cons m2 t2 => exact ⟨_, rfl⟩

theorem ascii_of_asciiString (s : String) (h : asciiString s = true) :
    ∀ c ∈ s.data, c.toNat < 128 := by
  intro c hc
  simp only [asciiString, List.all_eq_true, asciiChar, decide_eq_true_eq] at h
  exact h c hc

theorem parse_dumps : ∀ d : ℕ,
    (∀ (v : PyVal) (rest : List Char), wfV v = true → costV v ≤ d → headDigit rest = false →
      parseValue d (dumpsChars v ++ rest) = some (v, rest)) ∧
    (∀ (xs : List PyVal) (rest : List Char), wfItems xs = true → xs ≠ [] → costItems xs ≤ d →
      parseItems d (dumpsItems xs ++ (']' :: rest)) = some (xs, rest)) ∧
    (∀ (kvs : List (String × PyVal)) (rest : List Char), wfMembers kvs = true → kvs ≠ [] →
      costMembers kvs ≤ d →
      parseMembers d (dumpsMembers kvs ++ ('\x7d' :: rest)) = some (kvs, rest)) := by
  intro d
  induction d using Nat.strong_induction_on with
  | _ d ih =>
  refine ⟨?_, ?_, ?_⟩
  -- Values.
  · intro v rest hwf hcost hrest
    cases d with
    | zero => exact absurd hcost (by have := costV_pos v; omega)
    | succ e =>
    cases v with
    | pnull => rfl
    | pbool b => cases b with | true => rfl | false => rfl
    | pint n =>
      by_cases hn : n < 0
      · have hshape : dumpsChars (PyVal.pint n) = '-' :: natChars n.natAbs := by
          simp [dumpsChars_pint, intStr, hn]
        rw [hshape, List.cons_append, parseValue_minus]
        obtain ⟨m, tl, hm, hnat⟩ := natChars_head n.natAbs
        rw [hnat, List.cons_append]
        show (if isDigitChar (Char.ofNat (48 + m)) then
            some (PyVal.pint (-((parseDigits 0 (Char.ofNat (48 + m) :: (tl ++ rest))).1 : ℤ)),
              (parseDigits 0 (Char.ofNat (48 + m) :: (tl ++ rest))).2)
          else none) = some (PyVal.pint n, rest)
        rw [if_pos ((digitChar_facts m hm).1), ← List.cons_append, ← hnat,
          parseDigits_natChars _ 0 rest hrest]
        simp only [zero_mul, zero_add]
        have h2 : -((n.natAbs : ℤ)) = n := by omega
        rw [h2]
      · have hshape : dumpsChars (PyVal.pint n) = natChars n.toNat := by
          simp [dumpsChars_pint, intStr, hn]
        rw [hshape]
        obtain ⟨m, tl, hm, hnat⟩ := natChars_head n.toNat
        rw [hnat, List.cons_append, parseValue_digit e _ _ ⟨m, hm, rfl⟩,
          ← List.cons_append, ← hnat, parseDigits_natChars _ 0 rest hrest]
        simp only [zero_mul, zero_add]
        have h2 : ((n.toNat : ℕ) : ℤ) = n := by omega
        rw [h2]
    | pstr s =>
      have hwfs : asciiString s = true := hwf
      show parseValue (e + 1) (('"' :: (escapeString s ++ ['"'])) ++ rest)
        = some (PyVal.pstr s, rest)
      rw [List.cons_append, parseValue_quote, List.append_assoc, List.singleton_append]
      rw [show escapeString s = (s.data.map escapeChar).flatten from rfl]
      rw [parseStringBody_escape s.data _
        (by
          have := length_le_escaped s.data
          simp only [List.length_append, List.length_cons]
          omega)
        rest (ascii_of_asciiString s hwfs)]
      rfl
    | parr xs =>
      cases xs with
      | nil => rfl
      | cons x t =>
        have hwfi : wfItems (x :: t) = true := hwf
        show parseValue (e + 1) (('[' :: (dumpsItems (x :: t) ++ [']'])) ++ rest)
          = some (PyVal.parr (x :: t), rest)
        rw [List.cons_append, parseValue_lbracket, List.append_assoc, List.singleton_append]
        obtain ⟨T, hT⟩ := dumpsItems_cons_decomp x t
        obtain ⟨c, tl, hx, hws, hrb, hcb⟩ := dumpsChars_head x
        have hshape : dumpsItems (x :: t) ++ (']' :: rest) = c :: (tl ++ (T ++ (']' :: rest))) := by
          rw [hT, hx]
          simp [List.append_assoc]
        rw [hshape, skipWs_cons_not_ws c _ hws]
        split
        · next r heq =>
          injection heq with h1 _
          exact absurd h1 hrb
        · next heq =>
          rw [← hshape, (ih e (by omega)).2.1 (x :: t) rest hwfi (by simp)
            (by simp only [costV] at hcost; omega)]
          rfl
    | pobj kvs =>
      cases kvs with
      | nil => rfl
      | cons kv t =>
        have hwfm : wfMembers (kv :: t) = true := by
          simp only [wfV, Bool.and_eq_true] at hwf
          exact hwf.1
        show parseValue (e + 1) (('\x7b' :: (dumpsMembers (kv :: t) ++ ['\x7d'])) ++ rest)
          = some (PyVal.pobj (kv :: t), rest)
        rw [List.cons_append, parseValue_lbrace, List.append_assoc, List.singleton_append]
        obtain ⟨T, hT⟩ := dumpsMembers_cons_decomp kv t
        have hshape : dumpsMembers (kv :: t) ++ ('\x7d' :: rest)
            = '"' :: (T ++ ('\x7d' :: rest)) := by
          rw [hT]
          rfl
        rw [hshape, skipWs_cons_not_ws '"' _ rfl]
        split
        · next r heq =>
          injection heq with h1 _
          exact absurd h1 (by decide)
        · next heq =>
          rw [← hshape, (ih e (by omega)).2.2 (kv :: t) rest hwfm (by simp)
            (by simp only [costV] at hcost; omega)]
          rfl
  -- Array items.
  · intro xs rest hwf hne hcost
    rcases xs with _ | ⟨x, t⟩
    · exact absurd rfl hne
    cases d with
    | zero =>
      exact absurd hcost (by simp only [costItems]; have := costV_pos x; omega)
    | succ e =>
    have hwx : wfV x = true ∧ wfItems t = true := by
      simpa only [wfItems, Bool.and_eq_true] using hwf
    cases t with
    | nil =>
      show parseItems (e + 1) (dumpsChars x ++ (']' :: rest)) = some ([x], rest)
      rw [parseItems_succ, (ih e (by omega)).1 x (']' :: rest) hwx.1
        (by simp only [costItems, costV] at hcost ⊢; omega) rfl]
      rfl
    | cons y t2 =>
      show parseItems (e + 1)
          ((dumpsChars x ++ (',' :: ' ' :: dumpsItems (y :: t2))) ++ (']' :: rest))
        = some (x :: y :: t2, rest)
      rw [List.append_assoc, List.cons_append, List.cons_append, parseItems_succ,
        (ih e (by omega)).1 x (',' :: ' ' :: (dumpsItems (y :: t2) ++ (']' :: rest))) hwx.1
          (by simp only [costItems] at hcost; have := costV_pos y; omega) rfl]
      show (parseItems e (skipWs (' ' :: (dumpsItems (y :: t2) ++ (']' :: rest))))).map
          (fun p => (x :: p.1, p.2)) = some (x :: y :: t2, rest)
      rw [show skipWs (' ' :: (dumpsItems (y :: t2) ++ (']' :: rest)))
          = skipWs (dumpsItems (y :: t2) ++ (']' :: rest)) from rfl]
      obtain ⟨T, hT⟩ := dumpsItems_cons_decomp y t2
      obtain ⟨c, tl, hy, hws, -, -⟩ := dumpsChars_head y
      have hshape : dumpsItems (y :: t2) ++ (']' :: rest) = c :: (tl ++ (T ++ (']' :: rest))) := by
        rw [hT, hy]
        simp [List.append_assoc]
      rw [hshape, skipWs_cons_not_ws c _ hws, ← hshape,
        (ih e (by omega)).2.1 (y :: t2) rest hwx.2 (by simp)
          (by simp only [costItems] at hcost ⊢; omega)]
      rfl
  -- Object members.
  · intro kvs rest hwf hne hcost
    rcases kvs with _ | ⟨⟨k, v⟩, t⟩
    · exact absurd rfl hne
    cases d with
    | zero =>
      exact absurd hcost (by simp only [costMembers]; have := costV_pos v; omega)
    | succ e =>
    have hwkv : (asciiString k = true ∧ wfV v = true) ∧ wfMembers t = true := by
      simpa only [wfMembers, Bool.and_eq_true] using hwf
    cases t with
    | nil =>
      show parseMembers (e + 1)
          (('"' :: (escapeString k ++ ('"' :: ':' :: ' ' :: dumpsChars v))) ++ ('\x7d' :: rest))
        = some ([(k, v)], rest)
      rw [List.cons_append, parseMembers_succ_quote e _, List.append_assoc, List.cons_append,
        List.cons_append, List.cons_append]
      rw [show escapeString k = (k.data.map escapeChar).flatten from rfl]
      rw [parseStringBody_escape k.data _
        (by
          have := length_le_escaped k.data
          simp only [List.length_append, List.length_cons]
          omega)
        (':' :: ' ' :: (dumpsChars v ++ ('\x7d' :: rest))) (ascii_of_asciiString k hwkv.1.1)]
      show (match skipWs (':' :: ' ' :: (dumpsChars v ++ ('\x7d' :: rest))) with
        | ':' :: r2 =>
          match parseValue e (skipWs r2) with
          | none => none
          | some (v2, r3) =>
            match skipWs r3 with
            | ',' :: r4 =>
              (parseMembers e (skipWs r4)).map (fun p => ((String.mk k.data, v2) :: p.1, p.2))
            | '\x7d' :: r4 => some ([(String.mk k.data, v2)], r4)
            | _ => none
        | _ => none) = some ([(k, v)], rest)
      rw [show skipWs (':' :: ' ' :: (dumpsChars v ++ ('\x7d' :: rest)))
          = ':' :: ' ' :: (dumpsChars v ++ ('\x7d' :: rest)) from rfl]
      show (match parseValue e (skipWs (' ' :: (dumpsChars v ++ ('\x7d' :: rest)))) with
        | none => none
        | some (v2, r3) =>
          match skipWs r3 with
          | ',' :: r4 =>
            (parseMembers e (skipWs r4)).map (fun p => ((String.mk k.data, v2) :: p.1, p.2))
          | '\x7d' :: r4 => some ([(String.mk k.data, v2)], r4)
          | _ => none) = some ([(k, v)], rest)
      rw [show skipWs (' ' :: (dumpsChars v ++ ('\x7d' :: rest)))
          = skipWs (dumpsChars v ++ ('\x7d' :: rest)) from rfl]
      obtain ⟨c, tl, hv, hws, -, -⟩ := dumpsChars_head v
      rw [show dumpsChars v ++ ('\x7d' :: rest) = c :: (tl ++ ('\x7d' :: rest)) from by
          rw [hv]; simp [List.append_assoc],
        skipWs_cons_not_ws c _ hws,
        show c :: (tl ++ ('\x7d' :: rest)) = dumpsChars v ++ ('\x7d' :: rest) from by
          rw [hv]; simp [List.append_assoc],
        (ih e (by omega)).1 v ('\x7d' :: rest) hwkv.1.2
          (by simp only [costMembers] at hcost; omega) rfl]
      rfl
    | cons m t2 =>
      show parseMembers (e + 1)
          ((('"' :: (escapeString k ++ ('"' :: ':' :: ' ' :: dumpsChars v)))
            ++ (',' :: ' ' :: dumpsMembers (m :: t2))) ++ ('\x7d' :: rest))
        = some ((k, v) :: m :: t2, rest)
      rw [List.append_assoc, List.cons_append, parseMembers_succ_quote e _, List.append_assoc,
        List.cons_append, List.cons_append, List.cons_append]
      rw [show escapeString k = (k.data.map escapeChar).flatten from rfl]
      rw [show (',' :: ' ' :: dumpsMembers (m :: t2)) ++ ('\x7d' :: rest)
          = ',' :: ' ' :: (dumpsMembers (m :: t2) ++ ('\x7d' :: rest)) from by
        simp]
      rw [parseStringBody_escape k.data _
        (by
          have := length_le_escaped k.data
          simp only [List.length_append, List.length_cons]
          omega)
        (':' :: ' ' :: (dumpsChars v
          ++ (',' :: ' ' :: (dumpsMembers (m :: t2) ++ ('\x7d' :: rest)))))
        (ascii_of_asciiString k hwkv.1.1)]
      show (match skipWs (':' :: ' ' :: (dumpsChars v
            ++ (',' :: ' ' :: (dumpsMembers (m :: t2) ++ ('\x7d' :: rest))))) with
        | ':' :: r2 =>
          match parseValue e (skipWs r2) with
          | none => none
          | some (v2, r3) =>
            match skipWs r3 with
            | ',' :: r4 =>
              (parseMembers e (skipWs r4)).map (fun p => ((String.mk k.data, v2) :: p.1, p.2))
            | '\x7d' :: r4 => some ([(String.mk k.data, v2)], r4)
            | _ => none
        | _ => none) = some ((k, v) :: m :: t2, rest)
      rw [show skipWs (':' :: ' ' :: (dumpsChars v
            ++ (',' :: ' ' :: (dumpsMembers (m :: t2) ++ ('\x7d' :: rest)))))
          = ':' :: ' ' :: (dumpsChars v
            ++ (',' :: ' ' :: (dumpsMembers (m :: t2) ++ ('\x7d' :: rest)))) from rfl]
      show (match parseValue e (skipWs (' ' :: (dumpsChars v
            ++ (',' :: ' ' :: (dumpsMembers (m :: t2) ++ ('\x7d' :: rest)))))) with
        | none => none
        | some (v2, r3) =>
          match skipWs r3 with
          | ',' :: r4 =>
            (parseMembers e (skipWs r4)).map (fun p => ((String.mk k.data, v2) :: p.1, p.2))
          | '\x7d' :: r4 => some ([(String.mk k.data, v2)], r4)
          | _ => none) = some ((k, v) :: m :: t2, rest)
      rw [show skipWs (' ' :: (dumpsChars v
            ++ (',' :: ' ' :: (dumpsMembers (m :: t2) ++ ('\x7d' :: rest)))))
          = skipWs (dumpsChars v
            ++ (',' :: ' ' :: (dumpsMembers (m :: t2) ++ ('\x7d' :: rest)))) from rfl]
      obtain ⟨c, tl, hv, hws, -, -⟩ := dumpsChars_head v
      rw [show dumpsChars v ++ (',' :: ' ' :: (dumpsMembers (m :: t2) ++ ('\x7d' :: rest)))
          = c :: (tl ++ (',' :: ' ' :: (dumpsMembers (m :: t2) ++ ('\x7d' :: rest)))) from by
          rw [hv]; simp [List.append_assoc],
        skipWs_cons_not_ws c _ hws,
        show c :: (tl ++ (',' :: ' ' :: (dumpsMembers (m :: t2) ++ ('\x7d' :: rest))))
          = dumpsChars v ++ (',' :: ' ' :: (dumpsMembers (m :: t2) ++ ('\x7d' :: rest))) from by
          rw [hv]; simp [List.append_assoc],
        (ih e (by omega)).1 v
          (',' :: ' ' :: (dumpsMembers (m :: t2) ++ ('\x7d' :: rest))) hwkv.1.2
          (by
            simp only [costMembers] at hcost
            rcases m with ⟨k2, v2⟩
            simp only [costMembers] at hcost
            have := costV_pos v2
            omega)
          rfl]
      show (parseMembers e (skipWs (' ' :: (dumpsMembers (m :: t2) ++ ('\x7d' :: rest))))).map
          (fun p => ((String.mk k.data, v) :: p.1, p.2)) = some ((k, v) :: m :: t2, rest)
      rw [show skipWs (' ' :: (dumpsMembers (m :: t2) ++ ('\x7d' :: rest)))
          = skipWs (dumpsMembers (m :: t2) ++ ('\x7d' :: rest)) from rfl]
      obtain ⟨T, hT⟩ := dumpsMembers_cons_decomp m t2
      rw [show dumpsMembers (m :: t2) ++ ('\x7d' :: rest) = '"' :: (T ++ ('\x7d' :: rest)) from by
          rw [hT]; rfl,
        skipWs_cons_not_ws '"' _ rfl,
        show '"' :: (T ++ ('\x7d' :: rest)) = dumpsMembers (m :: t2) ++ ('\x7d' :: rest) from by
          rw [hT]; rfl,
        (ih e (by omega)).2.2 (m :: t2) rest (hwkv.2) (by simp)
          (by
            simp only [costMembers] at hcost ⊢
            have := costV_pos v
            rcases m with ⟨k2, v2⟩
            simp only [costMembers] at hcost ⊢
            omega)]
      rfl

theorem loads_dumps (v : PyVal) (h : wfV v = true) : loads (dumps v) = some v := by
  have hp := (parse_dumps ((dumpsChars v).length + 1)).1 v [] h
    (by have := costV_le_len v; omega) rfl
  rw [List.append_nil] at hp
  show (match parseValue ((dumpsChars v).length + 1) (dumpsChars v) with
    | some (w, r) => if skipWs r = [] then some w else none
    | none => none) = some v
  rw [hp]
  rfl

theorem bytesStr_strBytes (s : String) : bytesStr (strBytes s) = s := by
  have h : (strBytes s).map Char.ofNat = s.data := by
    rw [strBytes, List.map_map]
    calc s.data.map (Char.ofNat ∘ Char.toNat)
        = s.data.map id := List.map_congr_left (fun c _ => Char.ofNat_toNat c)
      _ = s.data := List.map_id _
  rw [bytesStr, h]

theorem strBytes_lt_256 (s : String) (h : ∀ c ∈ s.data, c.toNat < 128) :
    ∀ b ∈ strBytes s, b < 256 := by
  intro b hb
  obtain ⟨c, hc, rfl⟩ := List.mem_map.1 hb
  have := h c hc
  omega

theorem decode_encode (content : PyVal) (hwf : wfV content = true)
    (hok : isContainer content = true ∨ (∃ n : ℤ, content = PyVal.pint n)) :
    decode_content (encode_content content) = content := by
  rcases hok with hcont | ⟨n, rfl⟩
  · unfold encode_content decode_content
    rw [if_pos hcont]
    rw [show (String.mk (b64encodeBytes (strBytes (dumps content)))).data
        = b64encodeBytes (strBytes (dumps content)) from rfl]
    have hascii : ∀ c ∈ (dumps content).data, c.toNat < 128 := by
      rw [show (dumps content).data = dumpsChars content from rfl]
      exact dumpsChars_ascii content hwf
    rw [b64_roundtrip _ (strBytes_lt_256 _ hascii), bytesStr_strBytes]
    show (match loads (dumps content) with
      | some v => v
      | none => PyVal.pstr (dumps content)) = content
    rw [loads_dumps content hwf]
  · unfold encode_content decode_content
    rw [if_neg (by simp [isContainer] : ¬ (isContainer (PyVal.pint n) = true))]
    rw [show pyStrScalar (PyVal.pint n) = intStr n from rfl]
    rw [show (String.mk (b64encodeBytes (strBytes (intStr n)))).data
        = b64encodeBytes (strBytes (intStr n)) from rfl]
    rw [b64_roundtrip _ (strBytes_lt_256 _ (intStr_ascii n)), bytesStr_strBytes]
    show (match loads (dumps (PyVal.pint n)) with
      | some v => v
      | none => PyVal.pstr (dumps (PyVal.pint n))) = PyVal.pint n
    rw [loads_dumps (PyVal.pint n) rfl]

theorem dictInsert_absorb (k : String) (v1 v2 : FileData) (l : List (String × FileData)) :
    dictInsert k v2 (dictInsert k v1 l) = dictInsert k v2 l := by
  induction l with
  | nil => simp [dictInsert]
  | cons p rest ih =>
    by_cases h : p.1 = k
    · simp [dictInsert, h]
    · simp [dictInsert, h, ih]

theorem dictGet_dictInsert (k : String) (v : FileData) (l : List (String × FileData)) :
    dictGet k (dictInsert k v l) = some v := by
  induction l with
  | nil => simp [dictInsert, dictGet]
  | cons p rest ih =>
    by_cases h : p.1 = k
    · simp [dictInsert, h, dictGet]
    · simp [dictInsert, h, dictGet, ih]

theorem countP_key_eq_zero (k : String) (l : List (String × FileData))
    (h : k ∉ l.map Prod.fst) : l.countP (fun p => p.1 = k) = 0 := by
  induction l with
  | nil => rfl
  | cons p rest ih =>
    simp only [List.map_cons, List.mem_cons, not_or] at h
    rw [List.countP_cons]
    simp only [ih h.2]
    have : ¬ (p.1 = k) := fun e => h.1 e.symm
    simp [this]

theorem countP_dictInsert (k : String) (v : FileData) (l : List (String × FileData))
    (h : (l.map Prod.fst).Nodup) : (dictInsert k v l).countP (fun p => p.1 = k) = 1 := by
  induction l with
  | nil => simp [dictInsert]
  | cons p rest ih =>
    simp only [List.map_cons, List.nodup_cons] at h
    by_cases hp : p.1 = k
    · simp only [dictInsert, hp, if_true, List.countP_cons]
      have h0 : rest.countP (fun q => q.1 = k) = 0 :=
        countP_key_eq_zero k rest (by rw [← hp]; exact h.1)
      simp [h0]
    · simp only [dictInsert, hp, if_false, List.countP_cons]
      have : ¬ (p.1 = k) := hp
      simp [this, ih h.2]

/-- C3, counterexample: writing the string `"1"` and reading it back yields
the integer 1, not the string — `_decode_content` JSON-decodes whatever the
stored text parses as, and `_encode_content` stored the raw text of a
non-container content. -/
theorem C3_vfs_roundtrip_counterexample :
    read_file (write_file (emptyVFS "t1") "health_data" "m.json" (PyVal.pstr "1") [] dt0)
        "health_data" "m.json" = some (PyVal.pint 1) ∧
    PyVal.pint 1 ≠ PyVal.pstr "1" :=
  ⟨rfl, fun h => PyVal.noConfusion h⟩

/-- C3, amended: `write_file` then `read_file` returns a value deep-equal to
the content for every dict, list, or int content (well-formed: ASCII strings,
distinct object keys; numbers are modelled as integers).  String contents
that themselves parse as JSON, and `True`/`False`/`None`, decode to a
different value, per the counterexample. -/
theorem C3_vfs_roundtrip_amended (st : VFSState) (category filename : String)
    (content : PyVal) (metadata : List (String × String)) (now : DateTime)
    (hwf : wfV content = true)
    (hok : isContainer content = true ∨ (∃ n : ℤ, content = PyVal.pint n)) :
    read_file (write_file st category filename content metadata now) category filename
      = some content := by
  simp only [read_file, write_file]
  rw [dictGet_dictInsert]
  show some (decode_content (encode_content content)) = some content
  rw [decode_encode content hwf hok]

/-- C3, witness: a concrete dict content round-trips intact. -/
theorem C3_vfs_roundtrip_amended_witness :
    read_file (write_file (emptyVFS "t1") "insights" "p.json"
        (PyVal.pobj [("score", PyVal.pint 7), ("ok", PyVal.parr [PyVal.pnull])]) [] dt0)
      "insights" "p.json"
      = some (PyVal.pobj [("score", PyVal.pint 7), ("ok", PyVal.parr [PyVal.pnull])]) :=
  C3_vfs_roundtrip_amended (emptyVFS "t1") "insights" "p.json"
    (PyVal.pobj [("score", PyVal.pint 7), ("ok", PyVal.parr [PyVal.pnull])]) [] dt0
    (by rfl) (Or.inl (by rfl))

theorem pyStartswith_append (a b : String) : pyStartswith (a ++ b) a = true := by
  simp only [pyStartswith, String.data_append, List.isPrefixOf_iff_prefix]
  exact List.prefix_append _ _

theorem startswith_generate_path (t c f : String) :
    pyStartswith (generate_path t c f) ("/" ++ t ++ "/") = true := by
  have h : (generate_path t c f).data
      = ("/" ++ t ++ "/").data ++ (c.data ++ "/".data ++ f.data) := by
    simp [generate_path, String.data_append]
  simp only [pyStartswith, h, List.isPrefixOf_iff_prefix]
  exact List.prefix_append _ _

theorem write_write_absorb (st : VFSState) (category filename : String) (c1 c2 : PyVal)
    (m1 m2 : List (String × String)) (t1 t2 : DateTime) :
    write_file (write_file st category filename c1 m1 t1) category filename c2 m2 t2
      = write_file st category filename c2 m2 t2 := by
  simp [write_file, dictInsert_absorb]

theorem countP_listed (st : VFSState) (hnd : keysNodup st) (category filename : String)
    (fd : FileData) (pre : String)
    (hpre : pyStartswith (generate_path st.tenant_id category filename) pre = true) :
    (((dictInsert (generate_path st.tenant_id category filename) fd st.files).filter
        (fun p => pyStartswith p.1 pre)).map (fun p => entryOf p.1 p.2)
      |>.filter (fun e => e.path = generate_path st.tenant_id category filename)).length = 1 := by
  rw [← List.countP_eq_length_filter, List.countP_map, List.countP_filter]
  rw [List.countP_congr (q := fun p => decide (p.1 = generate_path st.tenant_id category filename))]
  · exact countP_dictInsert _ fd st.files hnd
  · intro p _
    by_cases h : p.1 = generate_path st.tenant_id category filename
    · simp [entryOf, h, hpre]
    · simp [entryOf, h]

theorem C8_vfs_overwrite (st : VFSState) (hnd : keysNodup st)
    (category filename : String) (c1 c2 : PyVal)
    (m1 m2 : List (String × String)) (t1 t2 : DateTime) :
    ((list_files (write_file (write_file st category filename c1 m1 t1) category filename c2 m2 t2)
        (some category)).filter
      (fun e => e.path = generate_path st.tenant_id category filename)).length = 1 ∧
    write_file (write_file st category filename c1 m1 t1) category filename c2 m2 t2
      = write_file st category filename c2 m2 t2 ∧
    read_file (write_file (write_file st category filename c1 m1 t1) category filename c2 m2 t2)
        category filename
      = some (decode_content (encode_content c2)) := by
  refine ⟨?_, write_write_absorb st category filename c1 c2 m1 m2 t1 t2, ?_⟩
  · rw [write_write_absorb st category filename c1 c2 m1 m2 t1 t2]
    simp only [list_files, write_file]
    by_cases hc : category = ""
    · subst hc
      simp only [if_pos rfl]
      exact countP_listed st hnd "" filename _ _ (startswith_generate_path _ _ _)
    · simp only [if_neg hc]
      exact countP_listed st hnd category filename _ _ (by
        show pyStartswith (("/" ++ st.tenant_id ++ "/" ++ category ++ "/") ++ filename) _ = true
        exact pyStartswith_append _ _)
  · rw [write_write_absorb st category filename c1 c2 m1 m2 t1 t2]
    simp [read_file, write_file, dictGet_dictInsert]

/-- C8, witness: concrete double write on a fresh store. -/
theorem C8_vfs_overwrite_witness :
    ((list_files (write_file (write_file (emptyVFS "t1") "insights" "f.json" (PyVal.pint 1)
          [] dt0) "insights" "f.json" (PyVal.pint 2) [] dt0) (some "insights")).filter
      (fun e => e.path = generate_path (emptyVFS "t1").tenant_id "insights" "f.json")).length
        = 1 ∧
    read_file (write_file (write_file (emptyVFS "t1") "insights" "f.json" (PyVal.pint 1)
        [] dt0) "insights" "f.json" (PyVal.pint 2) [] dt0) "insights" "f.json"
      = some (decode_content (encode_content (PyVal.pint 2))) := by
  have h := C8_vfs_overwrite (emptyVFS "t1") (by simp [keysNodup, emptyVFS]) "insights" "f.json"
    (PyVal.pint 1) (PyVal.pint 2) [] [] dt0 dt0
  exact ⟨h.1, h.2.2⟩

theorem mem_dictInsert (k : String) (v : FileData) (l : List (String × FileData))
    (p : String × FileData) (hp : p ∈ dictInsert k v l) : p = (k, v) ∨ p ∈ l := by
  induction l with
  | nil => simpa [dictInsert] using hp
  | cons q rest ih =>
    by_cases h : q.1 = k
    · simp only [dictInsert, h, if_true, List.mem_cons] at hp
      rcases hp with rfl | hp
      · exact Or.inl rfl
      · exact Or.inr (List.mem_cons_of_mem q hp)
    · simp only [dictInsert, h, if_false, List.mem_cons] at hp
      rcases hp with rfl | hp
      · exact Or.inr (List.mem_cons_self q rest)
      · rcases ih hp with h2 | h2
        · exact Or.inl h2
        · exact Or.inr (List.mem_cons_of_mem q h2)

theorem mem_dictRemove (k : String) (l : List (String × FileData))
    (p : String × FileData) (hp : p ∈ dictRemove k l) : p ∈ l := by
  induction l with
  | nil => simp [dictRemove] at hp
  | cons q rest ih =>
    by_cases h : q.1 = k
    · simp only [dictRemove, h, if_true, List.mem_cons] at hp
      exact List.mem_cons_of_mem q hp
    · simp only [dictRemove, h, if_false, List.mem_cons] at hp
      rcases hp with rfl | hp
      · exact List.mem_cons_self q rest
      · exact List.mem_cons_of_mem q (ih hp)

theorem reached_invariant (tenant : String) (st : VFSState) (h : Reached tenant st) :
    st.tenant_id = tenant ∧
      ∀ p ∈ st.files, ∃ cat fn, p.1 = generate_path tenant cat fn := by
  induction h with
  | init => exact ⟨rfl, by simp [emptyVFS]⟩
  | write st0 category filename content metadata now _ ih =>
    refine ⟨ih.1, ?_⟩
    intro p hp
    simp only [write_file] at hp
    rcases mem_dictInsert _ _ _ p hp with rfl | hp2
    · exact ⟨category, filename, by simp [ih.1]⟩
    · exact ih.2 p hp2
  | delete st0 category filename _ ih =>
    constructor
    · simp only [delete_file]
      rcases hg : dictGet (generate_path st0.tenant_id category filename) st0.files with _ | fd <;>
        simp [hg, ih.1]
    · intro p hp
      simp only [delete_file] at hp
      rcases hg : dictGet (generate_path st0.tenant_id category filename) st0.files with _ | fd <;>
        rw [hg] at hp
      · exact ih.2 p hp
      · exact ih.2 p (mem_dictRemove _ _ p hp)

theorem C10_tenant_path_invariant (tenant : String) (st : VFSState) (h : Reached tenant st) :
    (∀ key ∈ st.files.map Prod.fst, ∃ cat fn, key = generate_path tenant cat fn) ∧
    (list_files st none).length = st.files.length ∧
    (get_storage_stats st).total_files = (list_files st none).length := by
  obtain ⟨ht, hkeys⟩ := reached_invariant tenant st h
  have hall : ∀ p ∈ st.files, pyStartswith p.1 ("/" ++ st.tenant_id ++ "/") = true := by
    intro p hp
    obtain ⟨cat, fn, hpath⟩ := hkeys p hp
    rw [hpath, ht]
    exact startswith_generate_path tenant cat fn
  have hfilter : st.files.filter
      (fun p => pyStartswith p.1 ("/" ++ st.tenant_id ++ "/")) = st.files :=
    List.filter_eq_self.2 hall
  refine ⟨?_, ?_, ?_⟩
  · intro key hkey
    obtain ⟨p, hp, rfl⟩ := List.mem_map.1 hkey
    exact hkeys p hp
  · simp [list_files, hfilter]
  · simp [get_storage_stats, list_files, hfilter]

theorem C10_tenant_path_invariant_witness :
    ((list_files (write_file (emptyVFS "t1") "health_data" "a.json" (PyVal.pint 1) [] dt0)
        none).length
      = (write_file (emptyVFS "t1") "health_data" "a.json" (PyVal.pint 1) [] dt0).files.length) ∧
    (get_storage_stats (write_file (emptyVFS "t1") "health_data" "a.json" (PyVal.pint 1) [] dt0)).total_files
      = (list_files (write_file (emptyVFS "t1") "health_data" "a.json" (PyVal.pint 1) [] dt0)
          none).length := by
  have h := C10_tenant_path_invariant "t1"
    (write_file (emptyVFS "t1") "health_data" "a.json" (PyVal.pint 1) [] dt0)
    (Reached.write _ _ _ _ _ _ Reached.init)
  exact ⟨h.2.1, h.2.2⟩

theorem lexLt_irrefl (l : List Char) : lexLt l l = false := by
  induction l with
  | nil => rfl
  | cons c cs ih => simp [lexLt, ih]

theorem lexLt_asymm (a b : List Char) (h : lexLt a b = true) : lexLt b a = false := by
  induction a generalizing b with
  | nil =>
    cases b with
    | nil => simp [lexLt] at h
    | cons c cs => simp [lexLt]
  | cons c cs ih =>
    cases b with
    | nil => simp [lexLt] at h
    | cons d ds =>
      simp only [lexLt] at h ⊢
      by_cases h1 : c < d
      · have h2 : ¬ d < c := fun h3 => absurd h1 (not_lt_of_gt h3)
        simp [h1, h2]
      · by_cases h2 : d < c
        · simp [h1, h2] at h
        · simp only [h1, h2, if_false] at h ⊢
          exact ih ds h

theorem lexLt_trans (a b c : List Char) (h1 : lexLt a b = true) (h2 : lexLt b c = true) :
    lexLt a c = true := by
  induction a generalizing b c with
  | nil =>
    cases b with
    | nil => simp [lexLt] at h1
    | cons d ds =>
      cases c with
      | nil => simp [lexLt] at h2
      | cons e es => simp [lexLt]
  | cons x xs ih =>
    cases b with
    | nil => simp [lexLt] at h1
    | cons d ds =>
      cases c with
      | nil => simp [lexLt] at h2
      | cons e es =>
        simp only [lexLt] at h1 h2 ⊢
        by_cases hxd : x < d
        · by_cases hde : d < e
          · simp [lt_trans hxd hde]
          · by_cases hed : e < d
            · simp [hde, hed] at h2
            · have : d = e := le_antisymm (not_lt.1 hed) (not_lt.1 hde)
              subst this
              simp [hxd]
        · by_cases hdx : d < x
          · simp [hxd, hdx] at h1
          · have : x = d := le_antisymm (not_lt.1 hdx) (not_lt.1 hxd)
            subst this
            simp only [lt_irrefl, if_false] at h1
            by_cases hde : x < e
            · simp [hde]
            · by_cases hed : e < x
              · simp [hde, hed] at h2
              · have : x = e := le_antisymm (not_lt.1 hed) (not_lt.1 hde)
                subst this
                simp only [lt_irrefl, if_false] at h2 ⊢
                exact ih ds es h1 h2

theorem lexLt_cons_same (c : Char) (a b : List Char) :
    lexLt (c :: a) (c :: b) = lexLt a b := by
  simp [lexLt]

theorem lexLt_append_same (xs a b : List Char) :
    lexLt (xs ++ a) (xs ++ b) = lexLt a b := by
  induction xs with
  | nil => rfl
  | cons c cs ih => simp [lexLt_cons_same, ih]

theorem lexLt_append_left (xs ys xs2 ys2 : List Char) (hlen : xs.length = ys.length)
    (h : lexLt xs ys = true) : lexLt (xs ++ xs2) (ys ++ ys2) = true := by
  induction xs generalizing ys with
  | nil =>
    cases ys with
    | nil => simp [lexLt] at h
    | cons d ds => simp at hlen
  | cons c cs ih =>
    cases ys with
    | nil => simp at hlen
    | cons d ds =>
      simp only [List.length_cons, Nat.succ.injEq] at hlen
      simp only [lexLt, List.cons_append] at h ⊢
      by_cases h1 : c < d
      · simp [h1]
      · by_cases h2 : d < c
        · simp [h1, h2] at h
        · simp only [h1, h2, if_false] at h ⊢
          exact ih ds hlen h

theorem padNum_length (w n : ℕ) : (padNum w n).length = w := by
  induction w generalizing n with
  | zero => rfl
  | succ w ih => simp [padNum, ih]

theorem digitOfNat_lt : ∀ a < 10, ∀ b < 10, a < b →
    Char.ofNat (48 + a) < Char.ofNat (48 + b) := by decide

theorem lexLt_padNum (w n m : ℕ) (hm : m < 10 ^ w) (h : n < m) :
    lexLt (padNum w n) (padNum w m) = true := by
  induction w generalizing n m with
  | zero => omega
  | succ w ih =>
    rw [show padNum (w + 1) n = padNum w (n / 10) ++ [Char.ofNat (48 + n % 10)] from rfl,
      show padNum (w + 1) m = padNum w (m / 10) ++ [Char.ofNat (48 + m % 10)] from rfl]
    by_cases h10 : n / 10 = m / 10
    · rw [h10, lexLt_append_same]
      have hd := digitOfNat_lt (n % 10) (by omega) (m % 10) (by omega) (by omega)
      simp [lexLt, hd]
    · have hlt : n / 10 < m / 10 := by
        have := Nat.div_le_div_right (c := 10) (le_of_lt h)
        omega
      have hmb : m / 10 < 10 ^ w := by
        rw [pow_succ] at hm
        omega
      exact lexLt_append_left _ _ _ _ (by rw [padNum_length, padNum_length])
        (ih (n / 10) (m / 10) hmb hlt)

theorem isoformat_data (t : DateTime) :
    (DateTime.isoformat t).data
      = padNum 4 t.year ++ '-' :: (padNum 2 t.month ++ '-' :: (padNum 2 t.day ++
        'T' :: (padNum 2 t.hour ++ ':' :: (padNum 2 t.minute ++ ':' :: (padNum 2 t.second ++
        (if t.microsecond = 0 then [] else '.' :: padNum 6 t.microsecond)))))) := by
  simp [DateTime.isoformat, List.append_assoc]

theorem strftime_data (t : DateTime) :
    (DateTime.strftimeCompact t).data
      = padNum 4 t.year ++ (padNum 2 t.month ++ (padNum 2 t.day ++
        '_' :: (padNum 2 t.hour ++ (padNum 2 t.minute ++ padNum 2 t.second)))) := by
  simp [DateTime.strftimeCompact, List.append_assoc]

theorem secKey_cases (a b : DateTime) (ha : a.inRange) (hb : b.inRange)
    (h : a.secKey < b.secKey) :
    a.year < b.year ∨ (a.year = b.year ∧ (a.month < b.month ∨ (a.month = b.month ∧
      (a.day < b.day ∨ (a.day = b.day ∧ (a.hour < b.hour ∨ (a.hour = b.hour ∧
      (a.minute < b.minute ∨ (a.minute = b.minute ∧ a.second < b.second))))))))) := by
  obtain ⟨hy1, hmo1a, hmo1b, hd1a, hd1b, hh1, hmi1, hs1, hus1⟩ := ha
  obtain ⟨hy2, hmo2a, hmo2b, hd2a, hd2b, hh2, hmi2, hs2, hus2⟩ := hb
  simp only [DateTime.secKey] at h
  omega

theorem lexLt_isoformat (a b : DateTime) (ha : a.inRange) (hb : b.inRange)
    (h : a.secKey < b.secKey) : strLtB a.isoformat b.isoformat = true := by
  have hb2 := hb
  obtain ⟨hy2, hmo2a, hmo2b, hd2a, hd2b, hh2, hmi2, hs2, hus2⟩ := hb2
  show lexLt a.isoformat.data b.isoformat.data = true
  rw [isoformat_data, isoformat_data]
  rcases secKey_cases a b ha hb h with h1 | ⟨e1, hc⟩
  · exact lexLt_append_left _ _ _ _ (by rw [padNum_length, padNum_length])
      (lexLt_padNum 4 _ _ (by omega) h1)
  rw [e1, lexLt_append_same, lexLt_cons_same]
  rcases hc with h2 | ⟨e2, hc⟩
  · exact lexLt_append_left _ _ _ _ (by rw [padNum_length, padNum_length])
      (lexLt_padNum 2 _ _ (by omega) h2)
  rw [e2, lexLt_append_same, lexLt_cons_same]
  rcases hc with h3 | ⟨e3, hc⟩
  · exact lexLt_append_left _ _ _ _ (by rw [padNum_length, padNum_length])
      (lexLt_padNum 2 _ _ (by omega) h3)
  rw [e3, lexLt_append_same, lexLt_cons_same]
  rcases hc with h4 | ⟨e4, hc⟩
  · exact lexLt_append_left _ _ _ _ (by rw [padNum_length, padNum_length])
      (lexLt_padNum 2 _ _ (by omega) h4)
  rw [e4, lexLt_append_same, lexLt_cons_same]
  rcases hc with h5 | ⟨e5, h6⟩
  · exact lexLt_append_left _ _ _ _ (by rw [padNum_length, padNum_length])
      (lexLt_padNum 2 _ _ (by omega) h5)
  rw [e5, lexLt_append_same, lexLt_cons_same]
  exact lexLt_append_left _ _ _ _ (by rw [padNum_length, padNum_length])
    (lexLt_padNum 2 _ _ (by omega) h6)

theorem lexLt_strftime (a b : DateTime) (ha : a.inRange) (hb : b.inRange)
    (h : a.secKey < b.secKey) :
    lexLt a.strftimeCompact.data b.strftimeCompact.data = true := by
  have hb2 := hb
  obtain ⟨hy2, hmo2a, hmo2b, hd2a, hd2b, hh2, hmi2, hs2, hus2⟩ := hb2
  rw [strftime_data, strftime_data]
  rcases secKey_cases a b ha hb h with h1 | ⟨e1, hc⟩
  · exact lexLt_append_left _ _ _ _ (by rw [padNum_length, padNum_length])
      (lexLt_padNum 4 _ _ (by omega) h1)
  rw [e1, lexLt_append_same]
  rcases hc with h2 | ⟨e2, hc⟩
  · exact lexLt_append_left _ _ _ _ (by rw [padNum_length, padNum_length])
      (lexLt_padNum 2 _ _ (by omega) h2)
  rw [e2, lexLt_append_same]
  rcases hc with h3 | ⟨e3, hc⟩
  · exact lexLt_append_left _ _ _ _ (by rw [padNum_length, padNum_length])
      (lexLt_padNum 2 _ _ (by omega) h3)
  rw [e3, lexLt_append_same, lexLt_cons_same]
  rcases hc with h4 | ⟨e4, hc⟩
  · exact lexLt_append_left _ _ _ _ (by rw [padNum_length, padNum_length])
      (lexLt_padNum 2 _ _ (by omega) h4)
  rw [e4, lexLt_append_same]
  rcases hc with h5 | ⟨e5, h6⟩
  · exact lexLt_append_left _ _ _ _ (by rw [padNum_length, padNum_length])
      (lexLt_padNum 2 _ _ (by omega) h5)
  rw [e5, lexLt_append_same]
  exact lexLt_padNum 2 _ _ (by omega) h6

theorem strftime_ne (a b : DateTime) (ha : a.inRange) (hb : b.inRange)
    (h : a.secKey < b.secKey) : a.strftimeCompact ≠ b.strftimeCompact := by
  intro he
  have hlt := lexLt_strftime a b ha hb h
  rw [he] at hlt
  rw [lexLt_irrefl] at hlt
  exact Bool.false_ne_true hlt

theorem insightPath_ne (tenant : String) (a b : DateTime) (ha : a.inRange) (hb : b.inRange)
    (h : a.secKey < b.secKey) : insightPath tenant a ≠ insightPath tenant b := by
  intro he
  apply strftime_ne a b ha hb h
  have hd := congrArg String.data he
  simp only [insightPath, generate_path, insightFilename, String.data_append,
    List.append_assoc] at hd
  have hd2 := List.append_cancel_left hd
  have hd3 := List.append_cancel_left hd2
  have hd4 := List.append_cancel_left hd3
  have hd5 := List.append_cancel_left hd4
  have hd6 := List.append_cancel_left hd5
  have hd7 := List.append_cancel_left hd6
  have hlen : a.strftimeCompact.data.length = b.strftimeCompact.data.length := by
    rw [strftime_data, strftime_data]
    simp [padNum_length]
  have heq : a.strftimeCompact.data = b.strftimeCompact.data :=
    List.append_inj_left hd7 hlen
  exact congrArg String.mk heq

theorem save_pattern_insight_eq (st : VFSState) (t : DateTime) (p : PyVal) :
    save_pattern_insight st t p
      = { tenant_id := st.tenant_id,
          files := dictInsert (insightPath st.tenant_id t)
            (insightFileData st.tenant_id t p) st.files } := rfl

theorem dictInsert_fresh (k : String) (v : FileData) (l : List (String × FileData))
    (h : ∀ p ∈ l, p.1 ≠ k) : dictInsert k v l = l ++ [(k, v)] := by
  induction l with
  | nil => rfl
  | cons q rest ih =>
    obtain ⟨k2, v2⟩ := q
    simp only [dictInsert]
    rw [if_neg (h (k2, v2) (List.mem_cons_self _ _))]
    rw [ih (fun q hq => h q (List.mem_cons_of_mem _ hq))]
    rfl

theorem applySaves_files (tenant : String) (st : VFSState) (saves : List (DateTime × PyVal))
    (hten : st.tenant_id = tenant)
    (hfresh : ∀ s ∈ saves, ∀ p ∈ st.files, p.1 ≠ insightPath tenant s.1)
    (hpair : List.Pairwise
      (fun s1 s2 : DateTime × PyVal => insightPath tenant s1.1 ≠ insightPath tenant s2.1) saves) :
    (applySaves st saves).tenant_id = tenant ∧
    (applySaves st saves).files
      = st.files ++ saves.map (fun s => (insightPath tenant s.1, insightFileData tenant s.1 s.2)) := by
  induction saves generalizing st with
  | nil => simp [applySaves, hten]
  | cons s rest ih =>
    obtain ⟨t, p⟩ := s
    rw [List.pairwise_cons] at hpair
    have hfiles : (save_pattern_insight st t p).files
        = st.files ++ [(insightPath tenant t, insightFileData tenant t p)] := by
      rw [save_pattern_insight_eq, hten]
      exact dictInsert_fresh _ _ _
        (fun q hq => hfresh (t, p) (List.mem_cons_self _ _) q hq)
    have hten2 : (save_pattern_insight st t p).tenant_id = tenant := by
      rw [save_pattern_insight_eq]
      exact hten
    have hfresh2 : ∀ s ∈ rest, ∀ q ∈ (save_pattern_insight st t p).files,
        q.1 ≠ insightPath tenant s.1 := by
      intro s hs q hq
      rw [hfiles] at hq
      rcases List.mem_append.1 hq with hq | hq
      · exact hfresh s (List.mem_cons_of_mem _ hs) q hq
      · simp only [List.mem_singleton] at hq
        subst hq
        exact hpair.1 s hs
    have := ih (save_pattern_insight st t p) hten2 hfresh2 hpair.2
    constructor
    · show (applySaves (save_pattern_insight st t p) rest).tenant_id = tenant
      exact this.1
    · show (applySaves (save_pattern_insight st t p) rest).files = _
      rw [this.2, hfiles]
      simp [List.append_assoc]

theorem insertByCreatedDesc_min (e : FileEntry) (l : List FileEntry)
    (h : ∀ x ∈ l, strLtB e.created_at x.created_at = true) :
    insertByCreatedDesc e l = l ++ [e] := by
  induction l with
  | nil => rfl
  | cons x xs ih =>
    have hx := h x (List.mem_cons_self _ _)
    have hfalse : strLtB x.created_at e.created_at = false := lexLt_asymm _ _ hx
    simp only [insertByCreatedDesc, hfalse, Bool.false_eq_true, if_false]
    rw [ih (fun y hy => h y (List.mem_cons_of_mem _ hy))]
    rfl

theorem sortDesc_of_ascending (l : List FileEntry)
    (h : List.Pairwise (fun a b : FileEntry => strLtB a.created_at b.created_at = true) l) :
    sortByCreatedDesc l = l.reverse := by
  induction l with
  | nil => rfl
  | cons a l ih =>
    rw [List.pairwise_cons] at h
    show insertByCreatedDesc a (sortByCreatedDesc l) = (a :: l).reverse
    rw [ih h.2, List.reverse_cons]
    exact insertByCreatedDesc_min a l.reverse (fun x hx => h.1 x (List.mem_reverse.1 hx))

/-- C9, counterexample: two saves with distinct `created_at` timestamps but
within the same clock second collide on the second-resolution filename, so the
second overwrites the first and `get_recent_insights 2` returns 1 entry, not
`min 2 2`. -/
theorem C9_recency_counterexample :
    dtA.isoformat ≠ dtB.isoformat ∧
    (get_recent_insights
        (applySaves (emptyVFS "t1") [(dtA, PyVal.pint 1), (dtB, PyVal.pint 2)]) 2).length = 1 ∧
    (1 : ℕ) ≠ min 2 2 :=
  ⟨by decide, rfl, by decide⟩

theorem list_files_insights (st : VFSState) (tenant : String) (l : List (DateTime × PyVal))
    (h1 : st.tenant_id = tenant)
    (h2 : st.files = l.map (fun s => (insightPath tenant s.1, insightFileData tenant s.1 s.2))) :
    list_files st (some "insights") = l.map (fun s => insightEntry tenant s.1 s.2) := by
  show (st.files.filter
      (fun p => pyStartswith p.1 ("/" ++ st.tenant_id ++ "/" ++ "insights" ++ "/"))).map
      (fun p => entryOf p.1 p.2) = _
  rw [h1, h2, List.filter_map]
  have hall : ∀ s ∈ l, ((fun p : String × FileData =>
      pyStartswith p.1 ("/" ++ tenant ++ "/" ++ "insights" ++ "/")) ∘
      (fun s : DateTime × PyVal =>
        (insightPath tenant s.1, insightFileData tenant s.1 s.2))) s = true := by
    intro s hs
    show pyStartswith (("/" ++ tenant ++ "/" ++ "insights" ++ "/") ++ insightFilename s.1)
      ("/" ++ tenant ++ "/" ++ "insights" ++ "/") = true
    exact pyStartswith_append _ _
  rw [List.filter_eq_self.2 hall, List.map_map]
  apply List.map_congr_left
  intro s hs
  rfl

/-- C9, amended: on saves at strictly increasing second-resolution instants,
`get_recent_insights k` returns exactly the `min k N` most recent entries in
strictly descending `created_at` order (the original claim fails for
same-second saves: the second-resolution filename collides and the store
overwrites). -/
theorem C9_recency_amended (tenant : String) (saves : List (DateTime × PyVal)) (k : ℕ)
    (hrange : ∀ s ∈ saves, DateTime.inRange s.1)
    (hchain : List.Chain' (fun a b : DateTime × PyVal => a.1.secKey < b.1.secKey) saves) :
    get_recent_insights (applySaves (emptyVFS tenant) saves) k
      = ((saves.map (fun s => insightEntry tenant s.1 s.2)).reverse).take k ∧
    (get_recent_insights (applySaves (emptyVFS tenant) saves) k).length = min k saves.length ∧
    List.Chain' (fun a b : FileEntry => strLtB b.created_at a.created_at = true)
      (get_recent_insights (applySaves (emptyVFS tenant) saves) k) := by
  haveI : IsTrans (DateTime × PyVal) (fun a b : DateTime × PyVal => a.1.secKey < b.1.secKey) :=
    ⟨fun _ _ _ h1 h2 => lt_trans h1 h2⟩
  have hpairKey : List.Pairwise
      (fun a b : DateTime × PyVal => a.1.secKey < b.1.secKey) saves :=
    List.chain'_iff_pairwise.mp hchain
  have hpairPath : List.Pairwise
      (fun s1 s2 : DateTime × PyVal => insightPath tenant s1.1 ≠ insightPath tenant s2.1)
      saves :=
    hpairKey.imp_of_mem (fun ha hb h =>
      insightPath_ne tenant _ _ (hrange _ ha) (hrange _ hb) h)
  have happ := applySaves_files tenant (emptyVFS tenant) saves rfl
    (by intro s hs p hp; simp [emptyVFS] at hp) hpairPath
  have hlist := list_files_insights (applySaves (emptyVFS tenant) saves) tenant saves happ.1
    (by rw [happ.2]; rfl)
  have hascEntries : List.Pairwise
      (fun a b : FileEntry => strLtB a.created_at b.created_at = true)
      (saves.map (fun s => insightEntry tenant s.1 s.2)) := by
    rw [List.pairwise_map]
    exact hpairKey.imp_of_mem (fun ha hb h =>
      lexLt_isoformat _ _ (hrange _ ha) (hrange _ hb) h)
  have hsort : sortByCreatedDesc (saves.map (fun s => insightEntry tenant s.1 s.2))
      = (saves.map (fun s => insightEntry tenant s.1 s.2)).reverse :=
    sortDesc_of_ascending _ hascEntries
  have hmain : get_recent_insights (applySaves (emptyVFS tenant) saves) k
      = ((saves.map (fun s => insightEntry tenant s.1 s.2)).reverse).take k := by
    show (sortByCreatedDesc (list_files (applySaves (emptyVFS tenant) saves)
      (some "insights"))).take k = _
    rw [hlist, hsort]
  refine ⟨hmain, ?_, ?_⟩
  · rw [hmain]
    simp [List.length_take, List.length_reverse, List.length_map]
  · rw [hmain]
    have hdesc : List.Pairwise
        (fun a b : FileEntry => strLtB b.created_at a.created_at = true)
        (((saves.map (fun s => insightEntry tenant s.1 s.2)).reverse).take k) := by
      apply List.Pairwise.sublist (List.take_sublist _ _)
      rw [List.pairwise_reverse]
      exact hascEntries
    exact hdesc.chain'

/-- C9 amended, witness: two saves one second apart, limit 2. -/
theorem C9_recency_amended_witness :
    (∀ s ∈ [(dtA, PyVal.pint 1),
        (dtC, PyVal.pint 2)], DateTime.inRange s.1) ∧
    get_recent_insights (applySaves (emptyVFS "t1") [(dtA, PyVal.pint 1),
        (dtC, PyVal.pint 2)]) 2
      = (([(dtA, PyVal.pint 1),
          (dtC, PyVal.pint 2)].map
          (fun s => insightEntry "t1" s.1 s.2)).reverse).take 2 ∧
    (get_recent_insights (applySaves (emptyVFS "t1") [(dtA, PyVal.pint 1),
        (dtC, PyVal.pint 2)]) 2).length = min 2 2 :=
  ⟨by simp [DateTime.inRange, dtA, dtC],
   (C9_recency_amended "t1" [(dtA, PyVal.pint 1), (dtC, PyVal.pint 2)] 2
     (by simp [DateTime.inRange, dtA, dtC])
     (by exact List.Chain.cons (by decide) List.Chain.nil)).1,
   (C9_recency_amended "t1" [(dtA, PyVal.pint 1), (dtC, PyVal.pint 2)] 2
     (by simp [DateTime.inRange, dtA, dtC])
     (by exact List.Chain.cons (by decide) List.Chain.nil)).2.1⟩

end Vibespan
